import Mathlib

/-! ccmaarchive: the OAuth2 client-credentials subsystem (package `auth`)

A shallow embedding of `auth/auth.go` together with the `client` table created in
`ccmaarchive.go`.

* Go strings are modelled by `String` (sequences of Unicode scalar values).
* `int64` arithmetic is `Int` arithmetic followed by `wrapInt64`.
* A Go result `(v, err)` is an `Except String v`; a `panic` is an `Except.error`.
* The clock (`time.Now().Unix()`) and the outcome of `rand.Read` are explicit arguments.
* The packages the code imports (go-jose, encoding/json, the request parsing of
  net/http) are not part of the repository; they are the fields of `Lib`.
* The connection pool is the content of the `client` table, its identity sequence and
  the errors, if any, that pgx reports for a statement: when it cannot be started and
  while it runs.
-/

namespace Ccma

/-! ## Go runtime -/

/-- Equality of Go results is decidable. -/
instance instDecidableEqExcept {ε α : Type} [DecidableEq ε] [DecidableEq α] :
    DecidableEq (Except ε α)
  | Except.ok a, Except.ok b =>
    if h : a = b then isTrue (congrArg Except.ok h)
    else isFalse fun e => h (Except.ok.inj e)
  | Except.error a, Except.error b =>
    if h : a = b then isTrue (congrArg Except.error h)
    else isFalse fun e => h (Except.error.inj e)
  | Except.ok _, Except.error _ => isFalse fun e => Except.noConfusion e
  | Except.error _, Except.ok _ => isFalse fun e => Except.noConfusion e

/-- Wrap-around of a mathematical integer into the range of Go's `int64`. -/
def wrapInt64 (x : Int) : Int := (x + 2 ^ 63) % 2 ^ 64 - 2 ^ 63

/-- Split a rune sequence at every occurrence of `sep` (the worker of `strings.Split`
for a one-rune separator): `n` occurrences give `n + 1` parts, empty parts included. -/
def splitRunes (sep : Char) : List Char → List (List Char)
  | [] => [[]]
  | c :: cs =>
    if c = sep then [] :: splitRunes sep cs
    else
      match splitRunes sep cs with
      | [] => [[c]]
      | p :: ps => (c :: p) :: ps

/-- Go `strings.Split(s, sep)` for a separator of one rune. -/
def Split (s : String) (sep : Char) : List String :=
  (splitRunes sep s.data).map String.mk

/-- Go `strings.ToLower` on the ASCII letters. Go also lower-cases letters outside ASCII;
no rune outside ASCII lower-cases to one of the letters of `bearer`, so the comparison
made by `OAuthMiddleware` is the same under both. -/
def ToLower (s : String) : String := String.mk (s.data.map Char.toLower)

/-- One lower-case hexadecimal digit (`hextable` of encoding/hex). -/
def hexDigit (n : Nat) : Char := "0123456789abcdef".data.getD n '0'

/-- Go `hex.EncodeToString`: two lower-case hexadecimal digits per byte. -/
def EncodeToString (bytes : List Nat) : String :=
  String.mk (bytes.flatMap fun b => [hexDigit (b % 256 / 16), hexDigit (b % 256 % 16)])

/-- The argument of a formatting verb. -/
inductive FmtArg where
  | str (s : String)
  | int (n : Int)

/-- Worker of `Sprintf`: the verbs `%s` (string operand) and `%d` (integer operand), the
only ones package auth uses; every other rune of the format is copied. -/
def sprintfRunes : List Char → List FmtArg → List Char
  | [], _ => []
  | '%' :: 's' :: rest, FmtArg.str s :: args => s.data ++ sprintfRunes rest args
  | '%' :: 'd' :: rest, FmtArg.int n :: args => (toString n).data ++ sprintfRunes rest args
  | c :: rest, args => c :: sprintfRunes rest args

/-- Go `fmt.Sprintf` restricted to `%s` and `%d`. -/
def Sprintf (format : String) (args : List FmtArg) : String :=
  String.mk (sprintfRunes format.data args)

/-- The class `\s` of Go regular expressions: tab, newline, form feed, carriage return,
space. -/
def isRegexpSpace (c : Char) : Bool :=
  c = '\t' || c = '\n' || c = Char.ofNat 12 || c = '\r' || c = ' '

/-- Go `regexp.MustCompile("\\s").ReplaceAllString(s, "")`: delete every white-space
rune. -/
def removeSpace (s : String) : String :=
  String.mk (s.data.filter fun c => !isRegexpSpace c)

/-! ## net/http -/

/-- A rune allowed in a header field name (RFC 7230 `tchar`). -/
def isTokenRune (c : Char) : Bool :=
  c.isAlphanum || "!#$%&*+-.^_|~".data.contains c || c.toNat = 39 || c.toNat = 96

/-- Worker of `CanonicalMIMEHeaderKey`: upper-case the first letter and every letter
after a hyphen, lower-case the others. -/
def canonicalRunes : Bool → List Char → List Char
  | _, [] => []
  | upper, c :: cs =>
    let c1 := if upper then c.toUpper else c.toLower
    c1 :: canonicalRunes (c1 = '-') cs

/-- Go `textproto.CanonicalMIMEHeaderKey`: a key with a rune that is not allowed in a
field name is returned unchanged. -/
def CanonicalMIMEHeaderKey (k : String) : String :=
  if k.data.all isTokenRune then String.mk (canonicalRunes true k.data) else k

/-- Go `http.Header`: the entries in the order they were added, keys canonical. -/
abbrev Header := List (String × String)

/-- Go `Header.Add`. -/
def Header.Add (h : Header) (key value : String) : Header :=
  h ++ [(CanonicalMIMEHeaderKey key, value)]

/-- Go `Header.Get`: the first value stored under the key, the empty string when there
is none. -/
def Header.Get (h : Header) (key : String) : String :=
  match h.find? (fun e => e.1 == CanonicalMIMEHeaderKey key) with
  | some e => e.2
  | none => ""

/-- Go `Header.Del`. -/
def Header.Del (h : Header) (key : String) : Header :=
  h.filter fun e => !(e.1 == CanonicalMIMEHeaderKey key)

/-- Go `Header.Set`. -/
def Header.Set (h : Header) (key value : String) : Header :=
  (h.Del key).Add key value

/-- Go `http.ResponseWriter`, as the state a handler leaves behind: the header map, the
status line once it is written together with the header block that went out with it,
and the body written so far. -/
structure ResponseWriter where
  header : Header
  status : Option Nat
  sent : Header
  body : String
deriving DecidableEq, Repr

/-- The writer the server hands to a handler. -/
def ResponseWriter.fresh : ResponseWriter :=
  { header := [], status := none, sent := [], body := "" }

/-- Go `w.Header().Add(key, value)`. -/
def ResponseWriter.HeaderAdd (w : ResponseWriter) (key value : String) : ResponseWriter :=
  { w with header := w.header.Add key value }

/-- Go `w.WriteHeader(code)`: the first call writes the status line and freezes the
header block; later calls change nothing. -/
def ResponseWriter.WriteHeader (w : ResponseWriter) (code : Nat) : ResponseWriter :=
  match w.status with
  | some _ => w
  | none => { w with status := some code, sent := w.header }

/-- Go `w.Write(data)`: writes the status line 200 first when none was written. -/
def ResponseWriter.Write (w : ResponseWriter) (data : String) : ResponseWriter :=
  let w1 := w.WriteHeader 200
  { w1 with body := w1.body ++ data }

/-- Go `http.Error`. -/
def httpError (w : ResponseWriter) (error : String) (code : Nat) : ResponseWriter :=
  let h := ((w.header.Del "Content-Length").Set "Content-Type" "text/plain; charset=utf-8").Set
    "X-Content-Type-Options" "nosniff"
  let w1 : ResponseWriter := { w with header := h }
  (w1.WriteHeader code).Write (error ++ "\n")

/-- Go `url.Values`. -/
abbrev Values := List (String × List String)

/-- Go `Values.Get`: the first value of the key, the empty string when there is none. -/
def Values.Get (v : Values) (key : String) : String :=
  match v.find? (fun e => e.1 == key) with
  | some (_, x :: _) => x
  | _ => ""

/-! ## Package auth: data -/

/-- The constant `OAUTH_ID_LENGTH`. -/
def OAUTH_ID_LENGTH : Nat := 16
/-- The constant `OAUTH_SECRET_LENGTH`. -/
def OAUTH_SECRET_LENGTH : Nat := 32
/-- The constant `ACCESS_TOKEN_DURATION`. -/
def ACCESS_TOKEN_DURATION : Int := 3600

/-- The struct `OAuthToken` (JSON fields `clientId`, `expiresAt`). -/
structure OAuthToken where
  OAuthId : String
  ExpiresAt : Int
deriving DecidableEq, Repr

/-- The struct `AuthContext`. -/
structure AuthContext where
  ClientId : Int
deriving DecidableEq, Repr

/-- A key of a `context.Context`: a value of the unexported type `key` of package auth,
or a key of another type. -/
inductive CtxKey where
  | authKey (k : Int)
  | foreign (type value : String)
deriving DecidableEq, Repr

/-- The package variable `contextKey`, the zero value of type `key`. -/
def contextKey : CtxKey := CtxKey.authKey 0

/-- A value stored in a `context.Context`: a `*AuthContext` (possibly nil) or a value of
another dynamic type. -/
inductive CtxVal where
  | authContextPtr (p : Option AuthContext)
  | foreign (type value : String)
deriving DecidableEq, Repr

/-- Go `context.Context`, as its chain of `WithValue` layers, innermost first. -/
abbrev Context := List (CtxKey × CtxVal)

/-- Go `context.WithValue`. -/
def Context.WithValue (ctx : Context) (k : CtxKey) (v : CtxVal) : Context := (k, v) :: ctx

/-- Go `ctx.Value(k)`: the value of the innermost layer with that key; `none` is the nil
interface. -/
def Context.Value (ctx : Context) (k : CtxKey) : Option CtxVal :=
  match ctx.find? (fun e => e.1 == k) with
  | some e => some e.2
  | none => none

/-- Go `http.Request`, the parts the handlers read. -/
structure Request where
  method : String
  header : Header
  body : String
  ctx : Context
deriving DecidableEq, Repr

/-- Go `r.WithContext(ctx)`. -/
def Request.WithContext (r : Request) (ctx : Context) : Request := { r with ctx := ctx }

/-- The type `httprouter.Params`. -/
abbrev Params := List (String × String)

/-- The type `httprouter.Handle`, as the function from the writer it receives to the
writer it leaves. -/
abbrev Handle := ResponseWriter → Request → Params → ResponseWriter

/-- A row of the table `client` (`CREATE TABLE client` in `main`). -/
structure Client where
  id : Int
  oauth_id : String
  oauth_secret : String
  created : Int
deriving DecidableEq, Repr

/-- The connection pool: the rows of `client` in scan order, the last value of the
identity sequence of `client.id`, and the two ways a statement can fail in pgx.
`fault` is the error that `pool.Query`, `pool.QueryRow` or `pool.Exec` report when the
statement cannot be started (no connection can be acquired, the pool is closed).
`rowsErr` is the error the server raises while a started statement runs: it ends the
result set, and it is what `rows.Err()`, `row.Scan` and `pool.Exec` report, while
`pool.Query` itself has already returned without error. Both are `none` when statements
run to their end. -/
structure Pool where
  client : List Client
  client_id_seq : Int
  fault : Option String
  rowsErr : Option String
deriving DecidableEq, Repr

/-- Go `pgx.Rows`, as far as package auth reads it: the rows not yet delivered and the
error that ended the result set, if any. -/
structure Rows where
  remaining : List Nat
  err : Option String
deriving DecidableEq, Repr

/-- Go `rows.Next()` on a result set not yet read: whether there is a row. -/
def Rows.Next (rows : Rows) : Bool := !rows.remaining.isEmpty

/-- The statement `SELECT id, oauth_secret FROM client WHERE oauth_id = $1` run by
`QueryRow` and read by `Scan`: the first matching row, an error when there is none or
when the statement fails. -/
def Pool.QueryRowIdSecret (pool : Pool) (oauthId : String) : Except String (Int × String) :=
  match pool.fault with
  | some e => Except.error e
  | none =>
    match pool.rowsErr with
    | some e => Except.error e
    | none =>
      match pool.client.find? (fun c => c.oauth_id == oauthId) with
      | some c => Except.ok (c.id, c.oauth_secret)
      | none => Except.error "no rows in result set"

/-- The statement `SELECT 1 FROM client WHERE oauth_id = $1 AND oauth_secret = $2` run by
`Query`: an error when the statement cannot be started; else a result set, which holds
one `1` per matching row, or no row and the error when the statement fails while it
runs. -/
def Pool.QueryCredentials (pool : Pool) (oauthId oauthSecret : String) :
    Except String Rows :=
  match pool.fault with
  | some e => Except.error e
  | none =>
    match pool.rowsErr with
    | some e => Except.ok { remaining := [], err := some e }
    | none =>
      Except.ok { remaining := (pool.client.filter fun c =>
                    c.oauth_id == oauthId && c.oauth_secret == oauthSecret).map fun _ => 1,
                  err := none }

/-- The statement `INSERT INTO client (oauth_id, oauth_secret) VALUES ($1, $2)` run by
`Exec`: `id` comes from the identity sequence and `created` from the clock of the
database, `now`. The table declares no constraint on `oauth_id` or `oauth_secret`
besides `NOT NULL`. -/
def Pool.ExecInsertClient (pool : Pool) (now : Int) (oauthId oauthSecret : String) :
    Except String Pool :=
  match pool.fault with
  | some e => Except.error e
  | none =>
    match pool.rowsErr with
    | some e => Except.error e
    | none =>
      Except.ok { pool with
        client := pool.client ++ [{ id := pool.client_id_seq + 1, oauth_id := oauthId,
                                    oauth_secret := oauthSecret, created := now }]
        client_id_seq := pool.client_id_seq + 1 }

/-- The imported packages: go-jose (`NewSigner` with HS256, `Sign`, `CompactSerialize`,
`ParseSigned`, `UnsafePayloadWithoutVerification`, `Verify`), encoding/json on
`OAuthToken` (`Marshal`, `Unmarshal`) and the parsers of net/http (`ParseForm` giving
`r.PostForm`, and the parser of a Basic `Authorization` value behind `r.BasicAuth`).
`S` is the type of signers, `J` the type of parsed signatures. -/
structure Lib (S J : Type) where
  NewSigner : String → Except String S
  Sign : S → String → Except String J
  CompactSerialize : J → Except String String
  ParseSigned : String → Except String J
  UnsafePayloadWithoutVerification : J → String
  Verify : J → String → Except String String
  Marshal : OAuthToken → Except String String
  Unmarshal : String → Except String OAuthToken
  ParseForm : Request → Except String Values
  parseBasicAuth : String → Option (String × String)

/-! ## Package auth: functions -/

section auth
variable {S J : Type}

/-- The function `createToken`. `now` is the reading of `time.Now().Unix()`. -/
def createToken (lib : Lib S J) (now : Int) (oauthId oauthSecret : String)
    (expiresIn : Int) : Except String String :=
  match lib.NewSigner oauthSecret with
  | Except.error err => Except.error err
  | Except.ok signer =>
    let expires_at := wrapInt64 (now + wrapInt64 expiresIn)
    let token : OAuthToken := { OAuthId := oauthId, ExpiresAt := expires_at }
    match lib.Marshal token with
    | Except.error err => Except.error err
    | Except.ok jsonToken =>
      match lib.Sign signer jsonToken with
      | Except.error err => Except.error err
      | Except.ok jws =>
        match lib.CompactSerialize jws with
        | Except.error err => Except.error err
        | Except.ok jwsCompact => Except.ok jwsCompact

/-- The function `validateToken`. The Go results `(nil, err)`, `(nil, nil)` and
`(&AuthContext, nil)` are `error err`, `ok none` and `ok (some _)`. `now` is the reading
of `time.Now().Unix()`. -/
def validateToken (lib : Lib S J) (pool : Pool) (now : Int) (tokenString : String) :
    Except String (Option AuthContext) :=
  match lib.ParseSigned tokenString with
  | Except.error err => Except.error err
  | Except.ok jws =>
    match lib.Unmarshal (lib.UnsafePayloadWithoutVerification jws) with
    | Except.error err => Except.error err
    | Except.ok token =>
      match pool.QueryRowIdSecret token.OAuthId with
      | Except.error err => Except.error err
      | Except.ok (clientId, oauthSecret) =>
        match lib.Verify jws oauthSecret with
        | Except.error err => Except.error err
        | Except.ok _ =>
          if token.ExpiresAt < now then Except.ok none
          else Except.ok (some { ClientId := clientId })

/-- The function `RegisterClient`, returning its Go result and the pool it leaves.
`rnd` is the outcome of `rand.Read` on the buffer of
`OAUTH_ID_LENGTH + OAUTH_SECRET_LENGTH` bytes: an error, or the bytes it filled in. -/
def RegisterClient (pool : Pool) (now : Int) (rnd : Except String (List Nat)) :
    Except String (String × String) × Pool :=
  match rnd with
  | Except.error err => (Except.error err, pool)
  | Except.ok bytes =>
    let oauthId := EncodeToString (bytes.take OAUTH_ID_LENGTH)
    let oauthSecret := EncodeToString (bytes.drop OAUTH_ID_LENGTH)
    match pool.ExecInsertClient now oauthId oauthSecret with
    | Except.error err => (Except.error err, pool)
    | Except.ok pool1 => (Except.ok (oauthId, oauthSecret), pool1)

/-- The function `RequireContext`: the type assertion `ctx.Value(contextKey).(*AuthContext)`
holds exactly for a stored `*AuthContext`; the panic is the error. -/
def RequireContext (ctx : Context) : Except String (Option AuthContext) :=
  match ctx.Value contextKey with
  | some (CtxVal.authContextPtr authContext) => Except.ok authContext
  | _ => Except.error "authContext"

/-- The function `sendOAuthError`. -/
def sendOAuthError (w : ResponseWriter) (err : String) (code : Nat) : ResponseWriter :=
  let w1 := w.HeaderAdd "content-type" "application/json; charset=utf-8"
  let w2 := w1.WriteHeader code
  w2.Write (Sprintf ("\x7b\"error\":\"%s\"\x7d" ++ "\n") [FmtArg.str err])

/-- Go `r.BasicAuth()`: no credentials when the `Authorization` header is absent, else
what the parser of net/http makes of its value. -/
def Request.BasicAuth (lib : Lib S J) (r : Request) : Option (String × String) :=
  let auth := r.header.Get "Authorization"
  if auth = "" then none else lib.parseBasicAuth auth

/-- The raw string literal that `OAuthTokenEndpoint` strips of white space to get the
format of its success response. -/
def tokenResponseTemplate : String :=
  "\x7b\n\t\t\t\"access_token\": \"%s\",\n\t\t\t\"token_type\": \"Bearer\",\n\t\t\t\"expires_in\": %d\n\t\t\x7d"

/-- The handler returned by `OAuthTokenEndpoint(pool)`. `now` is the reading of the clock
inside `createToken`. The two `fmt.Println(err)` write to the log only; `rows.Err()` is
not read. -/
def OAuthTokenEndpoint (lib : Lib S J) (pool : Pool) (now : Int) : Handle :=
  fun w r _ps =>
    match lib.ParseForm r with
    | Except.error _ => sendOAuthError w "invalid_request" 400
    | Except.ok postForm =>
      if postForm.Get "grant_type" ≠ "client_credentials" then
        sendOAuthError w "unsupported_grant_type" 400
      else
        match r.BasicAuth lib with
        | none =>
          sendOAuthError (w.HeaderAdd "WWW-Authenticate" "Basic") "invalid_client" 401
        | some (client_id, client_secret) =>
          match pool.QueryCredentials client_id client_secret with
          | Except.error _ => httpError w "Database error" 500
          | Except.ok rows =>
            if !rows.Next then
              sendOAuthError (w.HeaderAdd "WWW-Authenticate" "Basic") "invalid_client" 401
            else
              match createToken lib now client_id client_secret ACCESS_TOKEN_DURATION with
              | Except.error _ => httpError w "Token generation error" 500
              | Except.ok token =>
                let response := Sprintf (removeSpace tokenResponseTemplate)
                  [FmtArg.str token, FmtArg.int ACCESS_TOKEN_DURATION]
                let w1 := w.HeaderAdd "Content-Type" "application/json; charset=utf-8"
                let w2 := w1.HeaderAdd "Cache-Control" "no-store"
                w2.Write (response ++ "\n")

/-- The pointer kept by `authContext, _ := validateToken(...)`. -/
def resultPtr (res : Except String (Option AuthContext)) : Option AuthContext :=
  match res with
  | Except.ok p => p
  | Except.error _ => none

/-- The handler returned by `OAuthMiddleware(pool, next)`. `now` is the reading of the
clock inside `validateToken`. -/
def OAuthMiddleware (lib : Lib S J) (pool : Pool) (now : Int) (next : Handle) : Handle :=
  fun w r ps =>
    let authHeader := r.header.Get "Authorization"
    if authHeader = "" then
      (w.HeaderAdd "WWW-Authenticate" "Bearer").WriteHeader 401
    else
      let authHeaderParts := Split authHeader ' '
      if authHeaderParts.length ≠ 2 ∨ ToLower (authHeaderParts.getD 0 "") ≠ "bearer" then
        sendOAuthError (w.HeaderAdd "WWW-Authenticate" "Bearer") "invalid_token" 401
      else
        match resultPtr (validateToken lib pool now (authHeaderParts.getD 1 "")) with
        | none =>
          sendOAuthError (w.HeaderAdd "WWW-Authenticate" "Bearer") "invalid_token" 401
        | some authContext =>
          let ctx := r.ctx.WithValue contextKey (CtxVal.authContextPtr (some authContext))
          next w (r.WithContext ctx) ps

end auth

/-! ## What is assumed of the imported packages -/

section laws
variable {S J : Type}

/-- The properties of go-jose and encoding/json that the round trip of a token rests on.
The MAC is abstract: a signature made with a key verifies under that key and gives back
the payload; a compact serialization parses back to a signature object with the same
payload; it is made of base64url segments joined by dots, so it holds no space; and
`Unmarshal` inverts `Marshal` on `OAuthToken`. -/
structure Lib.Lawful (lib : Lib S J) : Prop where
  unmarshal_marshal : ∀ (t : OAuthToken) (s : String),
    lib.Marshal t = Except.ok s → lib.Unmarshal s = Except.ok t
  parse_serialize : ∀ (key : String) (signer : S) (payload : String) (jws : J) (s : String),
    lib.NewSigner key = Except.ok signer → lib.Sign signer payload = Except.ok jws →
    lib.CompactSerialize jws = Except.ok s →
    ∃ jws1, lib.ParseSigned s = Except.ok jws1 ∧
      lib.UnsafePayloadWithoutVerification jws1 = payload ∧
      lib.Verify jws1 key = Except.ok payload
  compact_no_space : ∀ (jws : J) (s : String),
    lib.CompactSerialize jws = Except.ok s → ' ' ∉ s.data

end laws

/-! ## A small executable instance of the imported packages

`refLib` is not go-jose: it is a stand-in with the same interface, used to run the model
on literal inputs and to show that `Lib.Lawful` can be met. Its token is
`payload.signature`, its MAC spells out key and payload, its JSON is
`clientId,` followed by `expiresAt` in unary. -/

/-- Cut a rune sequence around the first occurrence of `sep` (Go `strings.Cut`). -/
def cutRunes (sep : Char) : List Char → Option (List Char × List Char)
  | [] => none
  | c :: cs =>
    if c = sep then some ([], cs)
    else
      match cutRunes sep cs with
      | none => none
      | some (a, b) => some (c :: a, b)

/-- The MAC of `refLib`. -/
def refMac (key payload : String) : String := "mac(" ++ key ++ "," ++ payload ++ ")"

/-- The form parser of `refLib`: `k=v` pairs joined by `&`, read from the body of a
POST, PUT or PATCH request. -/
def refParseForm (r : Request) : Except String Values :=
  if r.method = "POST" ∨ r.method = "PUT" ∨ r.method = "PATCH" then
    Except.ok ((splitRunes '&' r.body.data).filterMap fun kv =>
      match cutRunes '=' kv with
      | some (k, v) => some (String.mk k, [String.mk v])
      | none => none)
  else Except.ok []

/-- The Basic-credentials parser of `refLib`: `Basic user:password`, not base64-coded. -/
def refParseBasicAuth (auth : String) : Option (String × String) :=
  match cutRunes ' ' auth.data with
  | none => none
  | some (scheme, rest) =>
    if ToLower (String.mk scheme) = "basic" then
      match cutRunes ':' rest with
      | some (u, p) => some (String.mk u, String.mk p)
      | none => none
    else none

/-- The stand-in for the imported packages. -/
def refLib : Lib String (String × String) where
  NewSigner := fun key => Except.ok key
  Sign := fun key payload => Except.ok (payload, refMac key payload)
  CompactSerialize := fun j =>
    if '.' ∈ j.1.data ∨ ' ' ∈ j.1.data ∨ ' ' ∈ j.2.data then
      Except.error "not serializable"
    else Except.ok (j.1 ++ "." ++ j.2)
  ParseSigned := fun s =>
    match cutRunes '.' s.data with
    | some (p, t) => Except.ok (String.mk p, String.mk t)
    | none => Except.error "compact JWS format must have a payload and a signature"
  UnsafePayloadWithoutVerification := fun j => j.1
  Verify := fun j key =>
    if j.2 = refMac key j.1 then Except.ok j.1
    else Except.error "error in cryptographic primitive"
  Marshal := fun t =>
    if t.ExpiresAt < 0 ∨ ',' ∈ t.OAuthId.data then Except.error "unsupported value"
    else Except.ok (t.OAuthId ++ "," ++ String.mk (List.replicate t.ExpiresAt.toNat '1'))
  Unmarshal := fun s =>
    match cutRunes ',' s.data with
    | some (c, e) =>
      if e.all (fun x => x == '1') then
        Except.ok { OAuthId := String.mk c, ExpiresAt := (e.length : Int) }
      else Except.error "invalid character"
    | none => Except.error "unexpected end of JSON input"
  ParseForm := refParseForm
  parseBasicAuth := refParseBasicAuth

/-! ## Literal inputs -/

/-- A pool with two registered clients. -/
def exPool : Pool :=
  { client := [{ id := 1, oauth_id := "c1", oauth_secret := "k1", created := 0 },
               { id := 2, oauth_id := "c2", oauth_secret := "k2", created := 0 }],
    client_id_seq := 2, fault := none, rowsErr := none }

/-- A protected handler that writes a fixed body. -/
def exHandler : Handle := fun w _ _ => w.Write "stored"

/-- A request with the given `Authorization` value and form body. -/
def exRequest (authorization body : String) : Request :=
  { method := "POST", header := [("Authorization", authorization)], body := body, ctx := [] }

/-- A request without an `Authorization` header. -/
def exRequestNoAuth : Request :=
  { method := "POST", header := [], body := "", ctx := [] }

/-- The pool `exPool` while the database cannot be reached. -/
def exPoolDown : Pool := { exPool with fault := some "connection refused" }

/-- The pool `exPool` while the server fails every statement it runs. -/
def exPoolFailing : Pool := { exPool with rowsErr := some "canceling statement" }

/-- The string has six runes that spell `bearer`, each in lower or upper case. Stated
on the runes themselves, without `ToLower`. -/
def IsBearerSpelling (s : String) : Prop :=
  ∃ c1 c2 c3 c4 c5 c6 : Char, s = String.mk [c1, c2, c3, c4, c5, c6] ∧
    (c1 = 'b' ∨ c1 = 'B') ∧ (c2 = 'e' ∨ c2 = 'E') ∧ (c3 = 'a' ∨ c3 = 'A') ∧
    (c4 = 'r' ∨ c4 = 'R') ∧ (c5 = 'e' ∨ c5 = 'E') ∧ (c6 = 'r' ∨ c6 = 'R')

/-- A pool in which two rows carry the same `oauth_id`. -/
def exPoolDup : Pool :=
  { client := [{ id := 1, oauth_id := "c1", oauth_secret := "k1", created := 0 },
               { id := 2, oauth_id := "c1", oauth_secret := "k2", created := 0 }],
    client_id_seq := 2, fault := none, rowsErr := none }

/-- The pool before any registration. -/
def exPoolEmpty : Pool :=
  { client := [], client_id_seq := 0, fault := none, rowsErr := none }

/-- No two rows of `client` share an `oauth_id`. -/
def Pool.UniqueOAuthIds (pool : Pool) : Prop :=
  (pool.client.map fun c => c.oauth_id).Nodup

instance instDecidableUniqueOAuthIds (pool : Pool) : Decidable pool.UniqueOAuthIds :=
  List.nodupDecidable (pool.client.map fun (c : Client) => c.oauth_id)

/-! ## Lemmas on the Go runtime functions -/

theorem wrapInt64_of_range {x : Int} (h0 : -2 ^ 63 ≤ x) (h1 : x < 2 ^ 63) :
    wrapInt64 x = x := by
  unfold wrapInt64
  rw [Int.emod_eq_of_lt (by omega) (by omega)]
  omega

theorem wrapInt64_duration : wrapInt64 ACCESS_TOKEN_DURATION = 3600 := by decide

theorem splitRunes_ne_nil (sep : Char) (l : List Char) : splitRunes sep l ≠ [] := by
  cases l with
  | nil => simp [splitRunes]
  | cons c cs =>
    unfold splitRunes
    split
    · simp
    · split <;> simp

theorem splitRunes_of_not_mem {sep : Char} {l : List Char} (h : sep ∉ l) :
    splitRunes sep l = [l] := by
  induction l with
  | nil => rfl
  | cons c cs ih =>
    have hc : c ≠ sep := fun e => h (by simp [e])
    have hcs : sep ∉ cs := fun e => h (by simp [e])
    simp [splitRunes, hc, ih hcs]

theorem splitRunes_append_sep {sep : Char} {a : List Char} (b : List Char) (h : sep ∉ a) :
    splitRunes sep (a ++ sep :: b) = a :: splitRunes sep b := by
  induction a with
  | nil => simp [splitRunes]
  | cons c cs ih =>
    have hc : c ≠ sep := fun e => h (by simp [e])
    have hcs : sep ∉ cs := fun e => h (by simp [e])
    simp [splitRunes, hc, ih hcs]

theorem not_mem_of_splitRunes_length_one {sep : Char} {l : List Char}
    (h : (splitRunes sep l).length = 1) : sep ∉ l := by
  induction l with
  | nil => simp
  | cons c cs ih =>
    unfold splitRunes at h
    by_cases hc : c = sep
    · rw [if_pos hc] at h
      cases hs : splitRunes sep cs with
      | nil => exact absurd hs (splitRunes_ne_nil sep cs)
      | cons p ps => rw [hs] at h; simp at h
    · rw [if_neg hc] at h
      cases hs : splitRunes sep cs with
      | nil => exact absurd hs (splitRunes_ne_nil sep cs)
      | cons p ps =>
        rw [hs] at h
        have hlen : (splitRunes sep cs).length = 1 := by rw [hs]; simpa using h
        have hcs := ih hlen
        simp only [List.mem_cons, not_or]
        exact ⟨fun e => hc e.symm, hcs⟩

theorem space_not_mem_of_ToLower_bearer {s : String} (h : ToLower s = "bearer") :
    ' ' ∉ s.data := by
  intro hmem
  have h1 : ' ' ∈ (ToLower s).data := by
    show ' ' ∈ s.data.map Char.toLower
    exact List.mem_map.mpr ⟨' ', hmem, by decide⟩
  rw [h] at h1
  revert h1
  decide

theorem toLower_cases (c : Char) :
    c.toLower = c ∨ (65 ≤ c.toNat ∧ c.toNat ≤ 90 ∧ c.toLower = Char.ofNat (c.toNat + 32)) := by
  unfold Char.toLower
  by_cases h : c.toNat ≥ 65 ∧ c.toNat ≤ 90
  · right
    simp only [h, and_self, if_true]
  · left
    simp only [h, if_false]

theorem eq_of_toLower_eq (c l u : Char)
    (hu : ∀ n : Nat, 65 ≤ n → n ≤ 90 → Char.ofNat (n + 32) = l → Char.ofNat n = u)
    (h : c.toLower = l) : c = l ∨ c = u := by
  rcases toLower_cases c with h1 | ⟨h1, h2, h3⟩
  · left; rw [← h1]; exact h
  · right
    rw [← Char.ofNat_toNat c]
    exact hu c.toNat h1 h2 (h3.symm.trans h)

theorem upper_of_b : ∀ n : Nat, 65 ≤ n → n ≤ 90 → Char.ofNat (n + 32) = 'b' → Char.ofNat n = 'B' := by
  intro n h1 h2
  interval_cases n <;> decide

theorem splitRunes_eq_pair {sep : Char} {l a b : List Char}
    (h : splitRunes sep l = [a, b]) : l = a ++ sep :: b ∧ sep ∉ a ∧ sep ∉ b := by
  induction l generalizing a with
  | nil => simp [splitRunes] at h
  | cons c cs ih =>
    unfold splitRunes at h
    by_cases hc : c = sep
    · rw [if_pos hc] at h
      simp only [List.cons.injEq] at h
      obtain ⟨ha, hb⟩ := h
      have hlen : (splitRunes sep cs).length = 1 := by rw [hb]; rfl
      have hn := not_mem_of_splitRunes_length_one hlen
      rw [splitRunes_of_not_mem hn] at hb
      simp only [List.cons.injEq, and_true] at hb
      subst ha hb hc
      exact ⟨rfl, by simp, hn⟩
    · rw [if_neg hc] at h
      cases hs : splitRunes sep cs with
      | nil => exact absurd hs (splitRunes_ne_nil sep cs)
      | cons p ps =>
        rw [hs] at h
        simp only [List.cons.injEq] at h
        obtain ⟨ha, hb⟩ := h
        subst ha hb
        obtain ⟨h1, h2, h3⟩ := ih hs
        refine ⟨by rw [h1]; rfl, ?_, h3⟩
        simp only [List.mem_cons, not_or]
        exact ⟨fun e => hc e.symm, h2⟩

theorem Split_eq_pair {h a b : String} (hs : Split h ' ' = [a, b]) :
    h = a ++ " " ++ b ∧ ' ' ∉ a.data ∧ ' ' ∉ b.data := by
  unfold Split at hs
  have hr : splitRunes ' ' h.data = [a.data, b.data] := by
    cases hsp : splitRunes ' ' h.data with
    | nil => rw [hsp] at hs; simp at hs
    | cons x xs =>
      rw [hsp] at hs
      cases xs with
      | nil => simp at hs
      | cons y ys =>
        cases ys with
        | nil =>
          simp only [List.map_cons, List.map_nil, List.cons.injEq, and_true] at hs
          obtain ⟨h1, h2⟩ := hs
          subst h1 h2
          rfl
        | cons z zs => simp at hs
  obtain ⟨h1, h2, h3⟩ := splitRunes_eq_pair hr
  refine ⟨?_, h2, h3⟩
  apply String.ext
  simp only [String.data_append, List.append_assoc]
  rw [h1]
  rfl

theorem upper_of_e : ∀ n : Nat, 65 ≤ n → n ≤ 90 → Char.ofNat (n + 32) = 'e' → Char.ofNat n = 'E' := by
  intro n h1 h2
  interval_cases n <;> decide
theorem upper_of_a : ∀ n : Nat, 65 ≤ n → n ≤ 90 → Char.ofNat (n + 32) = 'a' → Char.ofNat n = 'A' := by
  intro n h1 h2
  interval_cases n <;> decide
theorem upper_of_r : ∀ n : Nat, 65 ≤ n → n ≤ 90 → Char.ofNat (n + 32) = 'r' → Char.ofNat n = 'R' := by
  intro n h1 h2
  interval_cases n <;> decide

theorem ToLower_eq_bearer_iff (s : String) : ToLower s = "bearer" ↔ IsBearerSpelling s := by
  constructor
  · intro h
    have hd : s.data.map Char.toLower = ['b', 'e', 'a', 'r', 'e', 'r'] :=
      congrArg String.data h
    generalize hs : s.data = l at hd
    rcases l with _ | ⟨c1, _ | ⟨c2, _ | ⟨c3, _ | ⟨c4, _ | ⟨c5, _ | ⟨c6, _ | ⟨c7, l⟩⟩⟩⟩⟩⟩⟩
    case cons.cons.cons.cons.cons.cons.nil =>
      simp only [List.map_cons, List.map_nil, List.cons.injEq, and_true] at hd
      obtain ⟨h1, h2, h3, h4, h5, h6⟩ := hd
      exact ⟨c1, c2, c3, c4, c5, c6, String.ext hs,
        eq_of_toLower_eq c1 'b' 'B' upper_of_b h1, eq_of_toLower_eq c2 'e' 'E' upper_of_e h2,
        eq_of_toLower_eq c3 'a' 'A' upper_of_a h3, eq_of_toLower_eq c4 'r' 'R' upper_of_r h4,
        eq_of_toLower_eq c5 'e' 'E' upper_of_e h5, eq_of_toLower_eq c6 'r' 'R' upper_of_r h6⟩
    all_goals simp at hd
  · rintro ⟨c1, c2, c3, c4, c5, c6, rfl, h1, h2, h3, h4, h5, h6⟩
    rcases h1 with rfl | rfl <;> rcases h2 with rfl | rfl <;> rcases h3 with rfl | rfl <;>
      rcases h4 with rfl | rfl <;> rcases h5 with rfl | rfl <;> rcases h6 with rfl | rfl <;>
      rfl

theorem cutRunes_append_sep {sep : Char} {a : List Char} (b : List Char) (h : sep ∉ a) :
    cutRunes sep (a ++ sep :: b) = some (a, b) := by
  induction a with
  | nil => simp [cutRunes]
  | cons c cs ih =>
    have hc : c ≠ sep := fun e => h (by simp [e])
    have hcs : sep ∉ cs := fun e => h (by simp [e])
    simp [cutRunes, hc, ih hcs]

/-- The stand-in meets the assumptions made of the imported packages. -/
theorem refLib_lawful : refLib.Lawful where
  unmarshal_marshal := by
    intro t s h
    simp only [refLib] at h ⊢
    split at h
    · cases h
    · rename_i hcond
      simp only [not_or, not_lt] at hcond
      injection h with h
      subst h
      simp only [String.data_append, List.append_assoc]
      rw [List.singleton_append, cutRunes_append_sep _ hcond.2]
      simp [Int.toNat_of_nonneg hcond.1]
  parse_serialize := by
    intro key signer payload jws s h1 h2 h3
    simp only [refLib] at h1 h2 h3 ⊢
    injection h1 with h1
    injection h2 with h2
    subst h1 h2
    split at h3
    · cases h3
    · rename_i hcond
      simp only [not_or] at hcond
      injection h3 with h3
      subst h3
      simp only [String.data_append, List.append_assoc]
      rw [List.singleton_append, cutRunes_append_sep _ hcond.1]
      simp
  compact_no_space := by
    intro jws s h
    simp only [refLib] at h
    split at h
    · cases h
    · rename_i hcond
      simp only [not_or] at hcond
      injection h with h
      subst h
      simp only [String.data_append, List.mem_append, not_or]
      exact ⟨⟨hcond.2.1, by decide⟩, hcond.2.2⟩

/-! ## Lemmas on the statements -/

theorem QueryRowIdSecret_cases (pool : Pool) (oauthId : String) :
    (∃ e, pool.QueryRowIdSecret oauthId = Except.error e) ∨
    (pool.fault = none ∧ pool.rowsErr = none ∧
      ∃ c, pool.client.find? (fun x => x.oauth_id == oauthId) = some c ∧
        pool.QueryRowIdSecret oauthId = Except.ok (c.id, c.oauth_secret)) := by
  unfold Pool.QueryRowIdSecret
  cases h1 : pool.fault with
  | some e => exact Or.inl ⟨e, rfl⟩
  | none =>
    cases h2 : pool.rowsErr with
    | some e => exact Or.inl ⟨e, rfl⟩
    | none =>
      cases h3 : pool.client.find? (fun x => x.oauth_id == oauthId) with
      | none => exact Or.inl ⟨_, rfl⟩
      | some c => exact Or.inr ⟨rfl, rfl, c, rfl, rfl⟩

/-! ## Lemmas on the responses -/

theorem bare_challenge_eval :
    (ResponseWriter.fresh.HeaderAdd "WWW-Authenticate" "Bearer").WriteHeader 401
      = { header := [("Www-Authenticate", "Bearer")], status := some 401,
          sent := [("Www-Authenticate", "Bearer")], body := "" } := by
  decide

theorem invalid_token_eval :
    sendOAuthError (ResponseWriter.fresh.HeaderAdd "WWW-Authenticate" "Bearer")
        "invalid_token" 401
      = { header := [("Www-Authenticate", "Bearer"),
                     ("Content-Type", "application/json; charset=utf-8")],
          status := some 401,
          sent := [("Www-Authenticate", "Bearer"),
                   ("Content-Type", "application/json; charset=utf-8")],
          body := "\x7b\"error\":\"invalid_token\"\x7d\n" } := by
  decide

theorem invalid_client_eval :
    sendOAuthError (ResponseWriter.fresh.HeaderAdd "WWW-Authenticate" "Basic")
        "invalid_client" 401
      = { header := [("Www-Authenticate", "Basic"),
                     ("Content-Type", "application/json; charset=utf-8")],
          status := some 401,
          sent := [("Www-Authenticate", "Basic"),
                   ("Content-Type", "application/json; charset=utf-8")],
          body := "\x7b\"error\":\"invalid_client\"\x7d\n" } := by
  decide

theorem unsupported_grant_type_eval :
    sendOAuthError ResponseWriter.fresh "unsupported_grant_type" 400
      = { header := [("Content-Type", "application/json; charset=utf-8")],
          status := some 400,
          sent := [("Content-Type", "application/json; charset=utf-8")],
          body := "\x7b\"error\":\"unsupported_grant_type\"\x7d\n" } := by
  decide

theorem invalid_request_eval :
    sendOAuthError ResponseWriter.fresh "invalid_request" 400
      = { header := [("Content-Type", "application/json; charset=utf-8")],
          status := some 400,
          sent := [("Content-Type", "application/json; charset=utf-8")],
          body := "\x7b\"error\":\"invalid_request\"\x7d\n" } := by
  decide

theorem httpError_fresh_status (msg : String) (code : Nat) :
    (httpError ResponseWriter.fresh msg code).status = some code := rfl

theorem token_response_eval (token : String) :
    ((ResponseWriter.fresh.HeaderAdd "Content-Type" "application/json; charset=utf-8").HeaderAdd
        "Cache-Control" "no-store").Write
      (Sprintf (removeSpace tokenResponseTemplate)
        [FmtArg.str token, FmtArg.int ACCESS_TOKEN_DURATION] ++ "\n")
      = { header := [("Content-Type", "application/json; charset=utf-8"),
                     ("Cache-Control", "no-store")],
          status := some 200,
          sent := [("Content-Type", "application/json; charset=utf-8"),
                   ("Cache-Control", "no-store")],
          body := "\x7b\"access_token\":\"" ++ token
            ++ "\",\"token_type\":\"Bearer\",\"expires_in\":3600\x7d" ++ "\n" } := by
  have hfmt : Sprintf (removeSpace tokenResponseTemplate)
      [FmtArg.str token, FmtArg.int ACCESS_TOKEN_DURATION]
      = "\x7b\"access_token\":\"" ++ token
        ++ "\",\"token_type\":\"Bearer\",\"expires_in\":3600\x7d" := rfl
  have hw : (ResponseWriter.fresh.HeaderAdd "Content-Type"
      "application/json; charset=utf-8").HeaderAdd "Cache-Control" "no-store"
      = { header := [("Content-Type", "application/json; charset=utf-8"),
                     ("Cache-Control", "no-store")],
          status := none, sent := [], body := "" } := by decide
  rw [hfmt, hw]
  simp [ResponseWriter.Write, ResponseWriter.WriteHeader]

/-! ## Lemmas on the middleware -/

section middleware
variable {S J : Type}

theorem Split_bearer_header {scheme : String} (tok : String)
    (hs : ToLower scheme = "bearer") :
    Split (scheme ++ " " ++ tok) ' '
      = scheme :: (splitRunes ' ' tok.data).map String.mk := by
  have h0 := space_not_mem_of_ToLower_bearer hs
  simp only [Split, String.data_append, List.append_assoc]
  rw [List.singleton_append, splitRunes_append_sep _ h0]
  simp

/-- What the middleware does with a header whose first word is a spelling of `bearer`:
one more space rejects it, else the rest goes to `validateToken`. -/
theorem OAuthMiddleware_bearer (lib : Lib S J) (pool : Pool) (now : Int) (next : Handle)
    (w : ResponseWriter) (r : Request) (ps : Params) (scheme tok : String)
    (hr : r.header.Get "Authorization" = scheme ++ " " ++ tok)
    (hs : ToLower scheme = "bearer") :
    OAuthMiddleware lib pool now next w r ps =
      if ' ' ∈ tok.data then
        sendOAuthError (w.HeaderAdd "WWW-Authenticate" "Bearer") "invalid_token" 401
      else
        match resultPtr (validateToken lib pool now tok) with
        | none => sendOAuthError (w.HeaderAdd "WWW-Authenticate" "Bearer") "invalid_token" 401
        | some authContext =>
          next w (r.WithContext
            (r.ctx.WithValue contextKey (CtxVal.authContextPtr (some authContext)))) ps := by
  have hne : scheme ++ " " ++ tok ≠ "" := by
    intro h
    have := congrArg String.data h
    simp at this
  unfold OAuthMiddleware
  simp only [hr, hne, if_false, Split_bearer_header tok hs]
  by_cases hsp : ' ' ∈ tok.data
  · have hlen : (splitRunes ' ' tok.data).length ≠ 1 :=
      fun h => not_mem_of_splitRunes_length_one h hsp
    simp [hsp, hlen]
  · simp [hsp, splitRunes_of_not_mem hsp, hs]

theorem OAuthMiddleware_rejects (lib : Lib S J) (pool : Pool) (now : Int) (next : Handle)
    (r : Request) (ps : Params) (scheme tok : String)
    (hr : r.header.Get "Authorization" = scheme ++ " " ++ tok)
    (hs : ToLower scheme = "bearer")
    (hv : resultPtr (validateToken lib pool now tok) = none) :
    OAuthMiddleware lib pool now next ResponseWriter.fresh r ps
      = { header := [("Www-Authenticate", "Bearer"),
                     ("Content-Type", "application/json; charset=utf-8")],
          status := some 401,
          sent := [("Www-Authenticate", "Bearer"),
                   ("Content-Type", "application/json; charset=utf-8")],
          body := "\x7b\"error\":\"invalid_token\"\x7d\n" } := by
  rw [OAuthMiddleware_bearer lib pool now next _ r ps scheme tok hr hs, hv]
  split <;> exact invalid_token_eval

end middleware

/-! ## The bearer gate: rejections -/

section gate
variable {S J : Type}

/-- C7: a request with no `Authorization` header, or an empty one, gets status 401 with
the header `WWW-Authenticate: Bearer` (stored under net/http's canonical spelling
`Www-Authenticate`) and an empty body; the response is the same for every wrapped
handler, pool and clock, so the handler is not run. -/
theorem OAuthMiddleware_missing_header (lib : Lib S J) (pool : Pool) (now : Int)
    (next : Handle) (r : Request) (ps : Params)
    (hr : r.header.Get "Authorization" = "") :
    OAuthMiddleware lib pool now next ResponseWriter.fresh r ps
      = { header := [("Www-Authenticate", "Bearer")], status := some 401,
          sent := [("Www-Authenticate", "Bearer")], body := "" } := by
  unfold OAuthMiddleware
  simp only [hr, if_true]
  exact bare_challenge_eval

theorem OAuthMiddleware_missing_header_witness :
    exRequestNoAuth.header.Get "Authorization" = "" ∧
    OAuthMiddleware refLib exPool 0 exHandler ResponseWriter.fresh exRequestNoAuth []
      = { header := [("Www-Authenticate", "Bearer")], status := some 401,
          sent := [("Www-Authenticate", "Bearer")], body := "" } :=
  ⟨by decide, OAuthMiddleware_missing_header refLib exPool 0 exHandler exRequestNoAuth []
    (by decide)⟩

/-- C8: the check made on a non-empty `Authorization` value (its split on single spaces
has exactly two parts and the first lower-cases to `bearer`) holds exactly for the values
made of the six letters of `bearer`, each in either case, one space, and a token free of
spaces. A non-empty value not of that form gets 401 with `WWW-Authenticate: Bearer` and
the body line `{"error":"invalid_token"}`, whatever the pool, the clock, the libraries
and the wrapped handler are (neither `validateToken` nor the handler is consulted). A
value of that form splits into `[scheme, tok]`, passes the check, and the outcome is
decided by `validateToken` on `tok`. -/
theorem OAuthMiddleware_scheme_check (lib : Lib S J) (pool : Pool) (now : Int)
    (next : Handle) (r : Request) (ps : Params) :
    (((Split (r.header.Get "Authorization") ' ').length = 2 ∧
        ToLower ((Split (r.header.Get "Authorization") ' ').getD 0 "") = "bearer") ↔
      ∃ scheme tok : String, IsBearerSpelling scheme ∧ ' ' ∉ tok.data ∧
        r.header.Get "Authorization" = scheme ++ " " ++ tok) ∧
    (r.header.Get "Authorization" ≠ "" →
      ¬ (∃ scheme tok : String, IsBearerSpelling scheme ∧ ' ' ∉ tok.data ∧
          r.header.Get "Authorization" = scheme ++ " " ++ tok) →
      OAuthMiddleware lib pool now next ResponseWriter.fresh r ps
        = { header := [("Www-Authenticate", "Bearer"),
                       ("Content-Type", "application/json; charset=utf-8")],
            status := some 401,
            sent := [("Www-Authenticate", "Bearer"),
                     ("Content-Type", "application/json; charset=utf-8")],
            body := "\x7b\"error\":\"invalid_token\"\x7d\n" }) ∧
    (∀ (scheme tok : String) (w : ResponseWriter), IsBearerSpelling scheme →
      ' ' ∉ tok.data → r.header.Get "Authorization" = scheme ++ " " ++ tok →
      Split (r.header.Get "Authorization") ' ' = [scheme, tok] ∧
      OAuthMiddleware lib pool now next w r ps =
        match resultPtr (validateToken lib pool now tok) with
        | none =>
          sendOAuthError (w.HeaderAdd "WWW-Authenticate" "Bearer") "invalid_token" 401
        | some authContext =>
          next w (r.WithContext
            (r.ctx.WithValue contextKey (CtxVal.authContextPtr (some authContext)))) ps) := by
  have hsplit : ∀ scheme tok : String, IsBearerSpelling scheme → ' ' ∉ tok.data →
      r.header.Get "Authorization" = scheme ++ " " ++ tok →
      Split (r.header.Get "Authorization") ' ' = [scheme, tok] := by
    intro scheme tok hsp hno hr
    rw [hr, Split_bearer_header tok ((ToLower_eq_bearer_iff scheme).mpr hsp),
      splitRunes_of_not_mem hno]
    rfl
  have hiff : ((Split (r.header.Get "Authorization") ' ').length = 2 ∧
        ToLower ((Split (r.header.Get "Authorization") ' ').getD 0 "") = "bearer") ↔
      ∃ scheme tok : String, IsBearerSpelling scheme ∧ ' ' ∉ tok.data ∧
        r.header.Get "Authorization" = scheme ++ " " ++ tok := by
    constructor
    · rintro ⟨hlen, hlow⟩
      generalize hparts : Split (r.header.Get "Authorization") ' ' = parts at hlen hlow
      match parts, hlen with
      | [scheme, tok], _ =>
        obtain ⟨h1, _, h3⟩ := Split_eq_pair hparts
        exact ⟨scheme, tok, (ToLower_eq_bearer_iff scheme).mp hlow, h3, h1⟩
    · rintro ⟨scheme, tok, hsp, hno, hr⟩
      rw [hsplit scheme tok hsp hno hr]
      exact ⟨rfl, (ToLower_eq_bearer_iff scheme).mpr hsp⟩
  refine ⟨hiff, ?_, ?_⟩
  · intro hne hbad
    have hcond : (Split (r.header.Get "Authorization") ' ').length ≠ 2 ∨
        ToLower ((Split (r.header.Get "Authorization") ' ').getD 0 "") ≠ "bearer" := by
      by_cases hl : (Split (r.header.Get "Authorization") ' ').length = 2
      · exact Or.inr fun h => hbad (hiff.mp ⟨hl, h⟩)
      · exact Or.inl hl
    unfold OAuthMiddleware
    simp only [hne, if_false, hcond, if_true]
    exact invalid_token_eval
  · intro scheme tok w hsp hno hr
    refine ⟨hsplit scheme tok hsp hno hr, ?_⟩
    rw [OAuthMiddleware_bearer lib pool now next w r ps scheme tok hr
      ((ToLower_eq_bearer_iff scheme).mpr hsp), if_neg hno]

theorem OAuthMiddleware_scheme_check_witness :
    OAuthMiddleware refLib exPool 0 exHandler ResponseWriter.fresh
        (exRequest "Basic YzE6azE=" "") []
      = { header := [("Www-Authenticate", "Bearer"),
                     ("Content-Type", "application/json; charset=utf-8")],
          status := some 401,
          sent := [("Www-Authenticate", "Bearer"),
                   ("Content-Type", "application/json; charset=utf-8")],
          body := "\x7b\"error\":\"invalid_token\"\x7d\n" } ∧
    IsBearerSpelling "bEaReR" ∧
    Split ((exRequest "bEaReR c1,11.mac(k1,c1,11)" "").header.Get "Authorization") ' '
      = ["bEaReR", "c1,11.mac(k1,c1,11)"] ∧
    OAuthMiddleware refLib exPool (-3597) exHandler ResponseWriter.fresh
        (exRequest "bEaReR c1,11.mac(k1,c1,11)" "") []
      = exHandler ResponseWriter.fresh
          ((exRequest "bEaReR c1,11.mac(k1,c1,11)" "").WithContext
            (Context.WithValue [] contextKey
              (CtxVal.authContextPtr (some { ClientId := 1 })))) [] :=
  have hsp : IsBearerSpelling "bEaReR" :=
    ⟨'b', 'E', 'a', 'R', 'e', 'R', rfl, Or.inl rfl, Or.inr rfl, Or.inl rfl, Or.inr rfl,
      Or.inl rfl, Or.inr rfl⟩
  have h1 := OAuthMiddleware_scheme_check refLib exPool 0 exHandler
    (exRequest "Basic YzE6azE=" "") []
  have h2 := (OAuthMiddleware_scheme_check refLib exPool (-3597) exHandler
    (exRequest "bEaReR c1,11.mac(k1,c1,11)" "") []).2.2 "bEaReR" "c1,11.mac(k1,c1,11)"
    ResponseWriter.fresh hsp (by decide) (by decide)
  ⟨h1.2.1 (by decide) (fun hex => absurd (h1.1.mpr hex) (by decide)), hsp, h2.1,
   h2.2.trans (by decide)⟩

/-- `validateToken` gives no `AuthContext` for a token that parses and names a client
whose stored secret does not verify the signature. -/
theorem validateToken_bad_signature_error (lib : Lib S J) (pool : Pool) (now : Int)
    (tok : String) (jws : J) (token : OAuthToken) (c : Client) (e : String)
    (hparse : lib.ParseSigned tok = Except.ok jws)
    (hjson : lib.Unmarshal (lib.UnsafePayloadWithoutVerification jws) = Except.ok token)
    (hrow : pool.client.find? (fun x => x.oauth_id == token.OAuthId) = some c)
    (hsig : lib.Verify jws c.oauth_secret = Except.error e) :
    ∃ err, validateToken lib pool now tok = Except.error err := by
  unfold validateToken
  simp only [hparse, hjson]
  rcases QueryRowIdSecret_cases pool token.OAuthId with ⟨f, hq⟩ | ⟨_, _, c1, hc1, hq⟩
  · rw [hq]; exact ⟨f, rfl⟩
  · rw [hrow] at hc1
    injection hc1 with hc1
    subst hc1
    rw [hq]
    simp only [hsig]
    exact ⟨e, rfl⟩

/-- `validateToken` gives no `AuthContext` for a token that parses, names a client whose
stored secret verifies the signature, and has expired. -/
theorem validateToken_expired_none (lib : Lib S J) (pool : Pool) (now : Int)
    (tok : String) (jws : J) (token : OAuthToken) (c : Client) (payload : String)
    (hparse : lib.ParseSigned tok = Except.ok jws)
    (hjson : lib.Unmarshal (lib.UnsafePayloadWithoutVerification jws) = Except.ok token)
    (hrow : pool.client.find? (fun x => x.oauth_id == token.OAuthId) = some c)
    (hsig : lib.Verify jws c.oauth_secret = Except.ok payload)
    (hexp : token.ExpiresAt < now) :
    resultPtr (validateToken lib pool now tok) = none := by
  unfold validateToken
  simp only [hparse, hjson]
  rcases QueryRowIdSecret_cases pool token.OAuthId with ⟨f, hq⟩ | ⟨_, _, c1, hc1, hq⟩
  · rw [hq]; rfl
  · rw [hrow] at hc1
    injection hc1 with hc1
    subst hc1
    rw [hq]
    simp only [hsig, hexp, if_true]
    rfl

/-- C2: a bearer token that parses and names a registered client (the row the lookup
by `oauth_id` finds) but whose signature does not verify under that row's
`oauth_secret` makes `validateToken` return an error and no `AuthContext`, and
`OAuthMiddleware` answers 401 with `WWW-Authenticate: Bearer` and the body line
`{"error":"invalid_token"}`; the response is the same for every wrapped handler, so
the handler is not run and no context is attached. -/
theorem OAuthMiddleware_bad_signature (lib : Lib S J) (pool : Pool) (now : Int)
    (next : Handle) (r : Request) (ps : Params) (scheme tok : String) (jws : J)
    (token : OAuthToken) (c : Client) (e : String)
    (hparse : lib.ParseSigned tok = Except.ok jws)
    (hjson : lib.Unmarshal (lib.UnsafePayloadWithoutVerification jws) = Except.ok token)
    (hrow : pool.client.find? (fun x => x.oauth_id == token.OAuthId) = some c)
    (hsig : lib.Verify jws c.oauth_secret = Except.error e)
    (hs : ToLower scheme = "bearer")
    (hr : r.header.Get "Authorization" = scheme ++ " " ++ tok) :
    (∃ err, validateToken lib pool now tok = Except.error err) ∧
    resultPtr (validateToken lib pool now tok) = none ∧
    OAuthMiddleware lib pool now next ResponseWriter.fresh r ps
      = { header := [("Www-Authenticate", "Bearer"),
                     ("Content-Type", "application/json; charset=utf-8")],
          status := some 401,
          sent := [("Www-Authenticate", "Bearer"),
                   ("Content-Type", "application/json; charset=utf-8")],
          body := "\x7b\"error\":\"invalid_token\"\x7d\n" } := by
  obtain ⟨err, herr⟩ :=
    validateToken_bad_signature_error lib pool now tok jws token c e hparse hjson hrow hsig
  have hnone : resultPtr (validateToken lib pool now tok) = none := by rw [herr]; rfl
  exact ⟨⟨err, herr⟩, hnone,
    OAuthMiddleware_rejects lib pool now next r ps scheme tok hr hs hnone⟩

theorem OAuthMiddleware_bad_signature_witness :
    validateToken refLib exPool 0 "c1,11.mac(k2,c1,11)"
      = Except.error "error in cryptographic primitive" ∧
    OAuthMiddleware refLib exPool 0 exHandler ResponseWriter.fresh
        (exRequest "Bearer c1,11.mac(k2,c1,11)" "") []
      = { header := [("Www-Authenticate", "Bearer"),
                     ("Content-Type", "application/json; charset=utf-8")],
          status := some 401,
          sent := [("Www-Authenticate", "Bearer"),
                   ("Content-Type", "application/json; charset=utf-8")],
          body := "\x7b\"error\":\"invalid_token\"\x7d\n" } :=
  ⟨by decide,
   (OAuthMiddleware_bad_signature refLib exPool 0 exHandler
      (exRequest "Bearer c1,11.mac(k2,c1,11)" "") [] "Bearer" "c1,11.mac(k2,c1,11)"
      ("c1,11", "mac(k2,c1,11)") { OAuthId := "c1", ExpiresAt := 2 }
      { id := 1, oauth_id := "c1", oauth_secret := "k1", created := 0 }
      "error in cryptographic primitive"
      (by decide) (by decide) (by decide) (by decide) (by decide) (by decide)).2.2⟩

/-- C3: a correctly signed token of a registered client presented at a clock time after
its `expiresAt`, and a token whose signature does not verify under the secret of the
client it names, get the same response from `OAuthMiddleware` (status, header block and
body, whatever the pool, clock, request and wrapped handler of each run): 401,
`WWW-Authenticate: Bearer`, `Content-Type: application/json; charset=utf-8`, body line
`{"error":"invalid_token"}`; the handler runs in neither. -/
theorem OAuthMiddleware_expired_same_as_forged (lib : Lib S J)
    (pool1 : Pool) (now1 : Int) (next1 : Handle) (r1 : Request) (ps1 : Params)
    (scheme1 tok1 : String) (jws1 : J) (token1 : OAuthToken) (c1 : Client)
    (payload1 : String)
    (hparse1 : lib.ParseSigned tok1 = Except.ok jws1)
    (hjson1 : lib.Unmarshal (lib.UnsafePayloadWithoutVerification jws1) = Except.ok token1)
    (hrow1 : pool1.client.find? (fun x => x.oauth_id == token1.OAuthId) = some c1)
    (hsig1 : lib.Verify jws1 c1.oauth_secret = Except.ok payload1)
    (hexp1 : token1.ExpiresAt < now1)
    (hs1 : ToLower scheme1 = "bearer")
    (hr1 : r1.header.Get "Authorization" = scheme1 ++ " " ++ tok1)
    (pool2 : Pool) (now2 : Int) (next2 : Handle) (r2 : Request) (ps2 : Params)
    (scheme2 tok2 : String) (jws2 : J) (token2 : OAuthToken) (c2 : Client) (e : String)
    (hparse2 : lib.ParseSigned tok2 = Except.ok jws2)
    (hjson2 : lib.Unmarshal (lib.UnsafePayloadWithoutVerification jws2) = Except.ok token2)
    (hrow2 : pool2.client.find? (fun x => x.oauth_id == token2.OAuthId) = some c2)
    (hsig2 : lib.Verify jws2 c2.oauth_secret = Except.error e)
    (hs2 : ToLower scheme2 = "bearer")
    (hr2 : r2.header.Get "Authorization" = scheme2 ++ " " ++ tok2) :
    OAuthMiddleware lib pool1 now1 next1 ResponseWriter.fresh r1 ps1
      = OAuthMiddleware lib pool2 now2 next2 ResponseWriter.fresh r2 ps2 ∧
    OAuthMiddleware lib pool1 now1 next1 ResponseWriter.fresh r1 ps1
      = { header := [("Www-Authenticate", "Bearer"),
                     ("Content-Type", "application/json; charset=utf-8")],
          status := some 401,
          sent := [("Www-Authenticate", "Bearer"),
                   ("Content-Type", "application/json; charset=utf-8")],
          body := "\x7b\"error\":\"invalid_token\"\x7d\n" } := by
  have h1 := OAuthMiddleware_rejects lib pool1 now1 next1 r1 ps1 scheme1 tok1 hr1 hs1
    (validateToken_expired_none lib pool1 now1 tok1 jws1 token1 c1 payload1
      hparse1 hjson1 hrow1 hsig1 hexp1)
  obtain ⟨err, herr⟩ :=
    validateToken_bad_signature_error lib pool2 now2 tok2 jws2 token2 c2 e
      hparse2 hjson2 hrow2 hsig2
  have h2 := OAuthMiddleware_rejects lib pool2 now2 next2 r2 ps2 scheme2 tok2 hr2 hs2
    (by rw [herr]; rfl)
  exact ⟨h1.trans h2.symm, h1⟩

theorem OAuthMiddleware_expired_same_as_forged_witness :
    validateToken refLib exPool 3 "c1,11.mac(k1,c1,11)" = Except.ok none ∧
    validateToken refLib exPool 0 "c1,11.mac(k2,c1,11)"
      = Except.error "error in cryptographic primitive" ∧
    OAuthMiddleware refLib exPool 3 exHandler ResponseWriter.fresh
        (exRequest "Bearer c1,11.mac(k1,c1,11)" "") []
      = OAuthMiddleware refLib exPool 0 exHandler ResponseWriter.fresh
        (exRequest "Bearer c1,11.mac(k2,c1,11)" "") [] :=
  ⟨by decide, by decide,
   (OAuthMiddleware_expired_same_as_forged refLib
      exPool 3 exHandler (exRequest "Bearer c1,11.mac(k1,c1,11)" "") []
      "Bearer" "c1,11.mac(k1,c1,11)" ("c1,11", "mac(k1,c1,11)")
      { OAuthId := "c1", ExpiresAt := 2 }
      { id := 1, oauth_id := "c1", oauth_secret := "k1", created := 0 } "c1,11"
      (by decide) (by decide) (by decide) (by decide) (by decide) (by decide) (by decide)
      exPool 0 exHandler (exRequest "Bearer c1,11.mac(k2,c1,11)" "") []
      "Bearer" "c1,11.mac(k2,c1,11)" ("c1,11", "mac(k2,c1,11)")
      { OAuthId := "c1", ExpiresAt := 2 }
      { id := 1, oauth_id := "c1", oauth_secret := "k1", created := 0 }
      "error in cryptographic primitive"
      (by decide) (by decide) (by decide) (by decide) (by decide) (by decide)).1⟩

end gate

/-! ## Token round trip -/

section roundtrip
variable {S J : Type}

theorem createToken_ok (lib : Lib S J) (now : Int) (oauthId oauthSecret : String)
    (expiresIn : Int) (tok : String)
    (h : createToken lib now oauthId oauthSecret expiresIn = Except.ok tok) :
    ∃ signer payload jws, lib.NewSigner oauthSecret = Except.ok signer ∧
      lib.Marshal { OAuthId := oauthId, ExpiresAt := wrapInt64 (now + wrapInt64 expiresIn) }
        = Except.ok payload ∧
      lib.Sign signer payload = Except.ok jws ∧
      lib.CompactSerialize jws = Except.ok tok := by
  unfold createToken at h
  cases h1 : lib.NewSigner oauthSecret with
  | error e => rw [h1] at h; cases h
  | ok signer =>
    rw [h1] at h
    simp only at h
    cases h2 : lib.Marshal
        { OAuthId := oauthId, ExpiresAt := wrapInt64 (now + wrapInt64 expiresIn) } with
    | error e => rw [h2] at h; cases h
    | ok payload =>
      rw [h2] at h
      simp only at h
      cases h3 : lib.Sign signer payload with
      | error e => rw [h3] at h; cases h
      | ok jws =>
        rw [h3] at h
        simp only at h
        cases h4 : lib.CompactSerialize jws with
        | error e => rw [h4] at h; cases h
        | ok s =>
          rw [h4] at h
          simp only at h
          injection h with h
          subst h
          exact ⟨signer, payload, jws, rfl, rfl, h3, h4⟩

theorem validateToken_some (lib : Lib S J) (pool : Pool) (now : Int) (tok : String)
    (a : AuthContext) (h : resultPtr (validateToken lib pool now tok) = some a) :
    ∃ jws token c, lib.ParseSigned tok = Except.ok jws ∧
      lib.Unmarshal (lib.UnsafePayloadWithoutVerification jws) = Except.ok token ∧
      pool.client.find? (fun x => x.oauth_id == token.OAuthId) = some c ∧
      a = { ClientId := c.id } ∧
      validateToken lib pool now tok = Except.ok (some { ClientId := c.id }) := by
  have hv : validateToken lib pool now tok = Except.ok (some a) := by
    cases hres : validateToken lib pool now tok with
    | error e => rw [hres] at h; cases h
    | ok p => rw [hres] at h; simp only [resultPtr] at h; rw [h]
  have hv0 := hv
  unfold validateToken at hv
  cases h1 : lib.ParseSigned tok with
  | error e => rw [h1] at hv; cases hv
  | ok jws =>
    rw [h1] at hv
    simp only at hv
    cases h2 : lib.Unmarshal (lib.UnsafePayloadWithoutVerification jws) with
    | error e => rw [h2] at hv; cases hv
    | ok token =>
      rw [h2] at hv
      simp only at hv
      rcases QueryRowIdSecret_cases pool token.OAuthId with ⟨f, hq⟩ | ⟨_, _, c, h4, hq⟩
      · rw [hq] at hv; cases hv
      · rw [hq] at hv
        simp only at hv
        cases h5 : lib.Verify jws c.oauth_secret with
        | error e => rw [h5] at hv; cases hv
        | ok p =>
          rw [h5] at hv
          simp only at hv
          split at hv
          · cases hv
          · injection hv with hv
            injection hv with hv
            subst hv
            exact ⟨jws, token, c, rfl, h2, h4, rfl, hv0⟩

/-- C1, as amended: for a client row that the lookup by its `oauth_id` returns (its `id`
and `oauth_secret`; this is every row of a store that answers the query and in which no
two rows share an `oauth_id`), a token created by `createToken(oauth_id, oauth_secret, 3600)` at clock
time `t0` and presented as `Bearer <token>` at a clock time `t` not after the
`expiresAt` written into it (`t0 + 3600` in `int64`) makes `validateToken` return an
`AuthContext` with `ClientId` the row's `id`, and `OAuthMiddleware` hands the request,
with that context attached, to the wrapped handler. -/
theorem createToken_validateToken_roundtrip (lib : Lib S J) (hlib : lib.Lawful)
    (pool : Pool) (c : Client) (t0 t : Int) (tok scheme : String) (r : Request)
    (hq : pool.QueryRowIdSecret c.oauth_id = Except.ok (c.id, c.oauth_secret))
    (hcreate : createToken lib t0 c.oauth_id c.oauth_secret ACCESS_TOKEN_DURATION
      = Except.ok tok)
    (ht : t ≤ wrapInt64 (t0 + 3600))
    (hs : ToLower scheme = "bearer")
    (hr : r.header.Get "Authorization" = scheme ++ " " ++ tok) :
    validateToken lib pool t tok = Except.ok (some { ClientId := c.id }) ∧
    ∀ (next : Handle) (w : ResponseWriter) (ps : Params),
      OAuthMiddleware lib pool t next w r ps
        = next w (r.WithContext (r.ctx.WithValue contextKey
            (CtxVal.authContextPtr (some { ClientId := c.id })))) ps := by
  obtain ⟨signer, payload, jws, h1, h2, h3, h4⟩ :=
    createToken_ok lib t0 c.oauth_id c.oauth_secret ACCESS_TOKEN_DURATION tok hcreate
  obtain ⟨jws1, hp, hpay, hver⟩ :=
    hlib.parse_serialize c.oauth_secret signer payload jws tok h1 h3 h4
  have hun := hlib.unmarshal_marshal _ _ h2
  have hsp := hlib.compact_no_space jws tok h4
  rw [wrapInt64_duration] at hun
  have hval : validateToken lib pool t tok = Except.ok (some { ClientId := c.id }) := by
    unfold validateToken
    simp only [hp, hpay, hun, hq, hver]
    rw [if_neg (not_lt.mpr ht)]
  refine ⟨hval, ?_⟩
  intro next w ps
  rw [OAuthMiddleware_bearer lib pool t next w r ps scheme tok hr hs, if_neg hsp, hval]
  rfl

theorem createToken_validateToken_roundtrip_witness :
    validateToken refLib exPool (-3597) "c1,11.mac(k1,c1,11)"
      = Except.ok (some { ClientId := 1 }) ∧
    OAuthMiddleware refLib exPool (-3597) exHandler ResponseWriter.fresh
        (exRequest "Bearer c1,11.mac(k1,c1,11)" "") []
      = exHandler ResponseWriter.fresh
          ((exRequest "Bearer c1,11.mac(k1,c1,11)" "").WithContext
            (Context.WithValue [] contextKey
              (CtxVal.authContextPtr (some { ClientId := 1 })))) [] :=
  have h := createToken_validateToken_roundtrip refLib refLib_lawful exPool
    { id := 1, oauth_id := "c1", oauth_secret := "k1", created := 0 } (-3598) (-3597)
    "c1,11.mac(k1,c1,11)" "Bearer" (exRequest "Bearer c1,11.mac(k1,c1,11)" "")
    (by decide) (by decide) (by decide) (by decide) (by decide)
  ⟨h.1, h.2 exHandler ResponseWriter.fresh []⟩

/-- C1 as stated fails: in a store where two rows share an `oauth_id`, the token created
for the second row is verified against the secret of the first, the row the lookup
returns, and is rejected although it is presented at its time of issue. -/
theorem createToken_validateToken_duplicate_oauth_id :
    ({ id := 2, oauth_id := "c1", oauth_secret := "k2", created := 0 } : Client)
      ∈ exPoolDup.client ∧
    createToken refLib (-3598) "c1" "k2" 3600 = Except.ok "c1,11.mac(k2,c1,11)" ∧
    validateToken refLib exPoolDup (-3598) "c1,11.mac(k2,c1,11)"
      = Except.error "error in cryptographic primitive" ∧
    OAuthMiddleware refLib exPoolDup (-3598) exHandler ResponseWriter.fresh
        (exRequest "Bearer c1,11.mac(k2,c1,11)" "") []
      = { header := [("Www-Authenticate", "Bearer"),
                     ("Content-Type", "application/json; charset=utf-8")],
          status := some 401,
          sent := [("Www-Authenticate", "Bearer"),
                   ("Content-Type", "application/json; charset=utf-8")],
          body := "\x7b\"error\":\"invalid_token\"\x7d\n" } := by
  refine ⟨by decide, by decide, by decide, by decide⟩

/-- In a store whose statements run to their end and in which no two rows share an
`oauth_id`, the lookup by the `oauth_id` of a row returns that row. -/
theorem QueryRowIdSecret_of_unique (pool : Pool) (c : Client) (hf : pool.fault = none)
    (hx : pool.rowsErr = none) (hu : pool.UniqueOAuthIds) (hc : c ∈ pool.client) :
    pool.QueryRowIdSecret c.oauth_id = Except.ok (c.id, c.oauth_secret) := by
  unfold Pool.QueryRowIdSecret
  rw [hf, hx]
  simp only
  have key : ∀ (l : List Client), (l.map fun x => x.oauth_id).Nodup → c ∈ l →
      l.find? (fun x => x.oauth_id == c.oauth_id) = some c := by
    intro l
    induction l with
    | nil => intro _ h; cases h
    | cons a l ih =>
      intro hn hmem
      rw [List.map_cons, List.nodup_cons] at hn
      rcases List.mem_cons.mp hmem with rfl | hin
      · simp
      · have hne : a.oauth_id ≠ c.oauth_id := by
          intro e
          exact hn.1 (e ▸ List.mem_map_of_mem (fun x => x.oauth_id) hin)
        rw [List.find?_cons_of_neg _ (by simpa using hne)]
        exact ih hn.2 hin
  rw [key pool.client hu hc]

end roundtrip

/-! ## Registration -/

theorem RegisterClient_ok (pool : Pool) (now : Int) (rnd : Except String (List Nat))
    (oauthId oauthSecret : String) (pool1 : Pool)
    (h : RegisterClient pool now rnd = (Except.ok (oauthId, oauthSecret), pool1)) :
    pool1.client = pool.client ++ [{ id := pool.client_id_seq + 1, oauth_id := oauthId,
                                     oauth_secret := oauthSecret, created := now }] ∧
    ∃ bytes, rnd = Except.ok bytes ∧
      oauthId = EncodeToString (bytes.take OAUTH_ID_LENGTH) ∧
      oauthSecret = EncodeToString (bytes.drop OAUTH_ID_LENGTH) := by
  unfold RegisterClient at h
  cases rnd with
  | error e => simp at h
  | ok bytes =>
    simp only [Pool.ExecInsertClient] at h
    cases hf : pool.fault with
    | some f => rw [hf] at h; simp at h
    | none =>
      cases hx : pool.rowsErr with
      | some f => rw [hf, hx] at h; simp at h
      | none =>
        rw [hf, hx] at h
        simp only [Prod.mk.injEq, Except.ok.injEq] at h
        obtain ⟨⟨h1, h2⟩, h3⟩ := h
        subst h1 h2 h3
        exact ⟨rfl, bytes, rfl, rfl, rfl⟩

/-- C4, as amended: from a store in which no two rows share an `oauth_id`, a successful
`RegisterClient` leaves a store with that property exactly when the `oauth_id` it drew
(the hex form of the first 16 random bytes) is not already the `oauth_id` of a row;
neither `RegisterClient` nor the table rejects a repeated `oauth_id`. -/
theorem RegisterClient_unique_iff_fresh (pool : Pool) (now : Int)
    (rnd : Except String (List Nat)) (oauthId oauthSecret : String) (pool1 : Pool)
    (hu : pool.UniqueOAuthIds)
    (hreg : RegisterClient pool now rnd = (Except.ok (oauthId, oauthSecret), pool1)) :
    pool1.UniqueOAuthIds ↔ ∀ c ∈ pool.client, c.oauth_id ≠ oauthId := by
  obtain ⟨hrows, _⟩ := RegisterClient_ok pool now rnd oauthId oauthSecret pool1 hreg
  unfold Pool.UniqueOAuthIds at hu ⊢
  rw [hrows, List.map_append, List.nodup_append]
  simp only [List.map_cons, List.map_nil, List.nodup_singleton, true_and, List.disjoint_singleton,
    List.mem_map, not_exists, not_and]
  exact ⟨fun h => h.2, fun h => ⟨hu, h⟩⟩

theorem RegisterClient_unique_iff_fresh_witness :
    exPool.UniqueOAuthIds ∧
    ((RegisterClient exPool 5 (Except.ok (List.replicate 48 7))).2.UniqueOAuthIds ↔
      ∀ c ∈ exPool.client, c.oauth_id ≠ "07070707070707070707070707070707") :=
  ⟨by decide,
   RegisterClient_unique_iff_fresh exPool 5 (Except.ok (List.replicate 48 7))
    "07070707070707070707070707070707"
    "0707070707070707070707070707070707070707070707070707070707070707"
    (RegisterClient exPool 5 (Except.ok (List.replicate 48 7))).2
    (by decide) (by decide)⟩

/-- C4 as stated fails: two registrations whose random bytes agree on the first 16 both
succeed, and the store, which had one row and so no repeated `oauth_id`, ends with two
rows carrying the same `oauth_id`. -/
theorem RegisterClient_repeated_oauth_id :
    (RegisterClient exPoolEmpty 0 (Except.ok (List.replicate 48 0))).2.UniqueOAuthIds ∧
    (RegisterClient (RegisterClient exPoolEmpty 0 (Except.ok (List.replicate 48 0))).2 1
        (Except.ok (List.replicate 16 0 ++ List.replicate 32 1))).1
      = Except.ok ("00000000000000000000000000000000",
          "0101010101010101010101010101010101010101010101010101010101010101") ∧
    ¬ (RegisterClient (RegisterClient exPoolEmpty 0 (Except.ok (List.replicate 48 0))).2 1
        (Except.ok (List.replicate 16 0 ++ List.replicate 32 1))).2.UniqueOAuthIds := by
  refine ⟨by decide, by decide, by decide⟩

/-! ## The context on protected paths -/

section context
variable {S J : Type}

theorem RequireContext_error_iff (ctx : Context) :
    (∃ e, RequireContext ctx = Except.error e) ↔
      ¬ ∃ p, ctx.Value contextKey = some (CtxVal.authContextPtr p) := by
  unfold RequireContext
  cases h : ctx.Value contextKey with
  | none => simp
  | some v =>
    cases v with
    | authContextPtr p => simp
    | foreign ty val => simp

/-- C9: on every run of `OAuthMiddleware` either the response is the same for every
wrapped handler (the handler is not run), or the `Authorization` value is a spelling of
`bearer` and one token, and the handler is run on the request whose context holds, under
`contextKey`, the `AuthContext` that `validateToken` returned for that token, with
`ClientId` the `id` of the row found by the token's `clientId`; `RequireContext` on that
context returns it. `RequireContext` panics exactly when the context holds no
`*AuthContext` under `contextKey`. -/
theorem OAuthMiddleware_context (lib : Lib S J) (pool : Pool) (now : Int)
    (w : ResponseWriter) (r : Request) (ps : Params) :
    ((∃ resp, ∀ next : Handle, OAuthMiddleware lib pool now next w r ps = resp) ∨
     (∃ (scheme tok : String) (jws : J) (token : OAuthToken) (c : Client),
        Split (r.header.Get "Authorization") ' ' = [scheme, tok] ∧
        ToLower scheme = "bearer" ∧
        lib.ParseSigned tok = Except.ok jws ∧
        lib.Unmarshal (lib.UnsafePayloadWithoutVerification jws) = Except.ok token ∧
        pool.client.find? (fun x => x.oauth_id == token.OAuthId) = some c ∧
        validateToken lib pool now tok = Except.ok (some { ClientId := c.id }) ∧
        (∀ next : Handle, OAuthMiddleware lib pool now next w r ps
          = next w (r.WithContext (r.ctx.WithValue contextKey
              (CtxVal.authContextPtr (some { ClientId := c.id })))) ps) ∧
        RequireContext (r.WithContext (r.ctx.WithValue contextKey
            (CtxVal.authContextPtr (some { ClientId := c.id })))).ctx
          = Except.ok (some { ClientId := c.id }))) ∧
    (∀ ctx : Context, (∃ e, RequireContext ctx = Except.error e) ↔
      ¬ ∃ p, ctx.Value contextKey = some (CtxVal.authContextPtr p)) := by
  refine ⟨?_, RequireContext_error_iff⟩
  by_cases h1 : r.header.Get "Authorization" = ""
  · left
    refine ⟨(w.HeaderAdd "WWW-Authenticate" "Bearer").WriteHeader 401, fun next => ?_⟩
    unfold OAuthMiddleware
    simp only [h1, if_true]
  · by_cases h2 : (Split (r.header.Get "Authorization") ' ').length ≠ 2 ∨
        ToLower ((Split (r.header.Get "Authorization") ' ').getD 0 "") ≠ "bearer"
    · left
      refine ⟨sendOAuthError (w.HeaderAdd "WWW-Authenticate" "Bearer") "invalid_token" 401,
        fun next => ?_⟩
      unfold OAuthMiddleware
      simp only [h1, if_false, h2, if_true]
    · cases h3 : resultPtr (validateToken lib pool now
          ((Split (r.header.Get "Authorization") ' ').getD 1 "")) with
      | none =>
        left
        refine ⟨sendOAuthError (w.HeaderAdd "WWW-Authenticate" "Bearer") "invalid_token" 401,
          fun next => ?_⟩
        unfold OAuthMiddleware
        simp only [h1, if_false, h2, h3]
      | some a =>
        right
        obtain ⟨jws, token, c, hp, hj, hrow, ha, hv⟩ :=
          validateToken_some lib pool now _ a h3
        subst ha
        have hmw : ∀ next : Handle, OAuthMiddleware lib pool now next w r ps
            = next w (r.WithContext (r.ctx.WithValue contextKey
                (CtxVal.authContextPtr (some { ClientId := c.id })))) ps := by
          intro next
          unfold OAuthMiddleware
          simp only [h1, if_false, h2, h3]
        simp only [not_or, not_not] at h2
        obtain ⟨hlen, hlow⟩ := h2
        generalize hparts : Split (r.header.Get "Authorization") ' ' = parts at *
        match parts, hlen with
        | [scheme, tok], _ =>
          exact ⟨scheme, tok, jws, token, c, rfl, hlow, hp, hj, hrow, hv, hmw, rfl⟩

theorem OAuthMiddleware_context_witness :
    (∃ e, RequireContext [] = Except.error e) ∧
    RequireContext (Context.WithValue [] contextKey
        (CtxVal.authContextPtr (some { ClientId := 1 })))
      = Except.ok (some { ClientId := 1 }) :=
  ⟨((OAuthMiddleware_context refLib exPool 0 ResponseWriter.fresh exRequestNoAuth []).2 []).mpr
      (fun h => h.elim fun _ hp => Option.noConfusion hp),
   by decide⟩

end context

/-! ## The token endpoint -/

theorem database_error_eval :
    httpError ResponseWriter.fresh "Database error" 500
      = { header := [("Content-Type", "text/plain; charset=utf-8"),
                     ("X-Content-Type-Options", "nosniff")],
          status := some 500,
          sent := [("Content-Type", "text/plain; charset=utf-8"),
                   ("X-Content-Type-Options", "nosniff")],
          body := "Database error\n" } := by
  decide

theorem QueryCredentials_next (pool : Pool) (oauthId oauthSecret : String)
    (hf : pool.fault = none) :
    ∃ rows, pool.QueryCredentials oauthId oauthSecret = Except.ok rows ∧
      (rows.Next = true ↔ pool.rowsErr = none ∧
        ∃ c ∈ pool.client, c.oauth_id = oauthId ∧ c.oauth_secret = oauthSecret) := by
  unfold Pool.QueryCredentials
  rw [hf]
  cases hx : pool.rowsErr with
  | some e => exact ⟨_, rfl, by simp [Rows.Next]⟩
  | none =>
    refine ⟨_, rfl, ?_⟩
    simp [Rows.Next, List.isEmpty_iff, List.filter_eq_nil_iff]

section endpoint
variable {S J : Type}

/-- C5: a request to the token endpoint whose form parses and whose `grant_type` is not
exactly `client_credentials` (absent included: `Get` then gives the empty string) gets
400 with the body line `{"error":"unsupported_grant_type"}`, whatever its
`Authorization` header, the pool (reachable or not) and the clock are: no lookup is
made and no token is created. -/
theorem OAuthTokenEndpoint_unsupported_grant_type (lib : Lib S J) (pool : Pool) (now : Int)
    (r : Request) (ps : Params) (postForm : Values)
    (hparse : lib.ParseForm r = Except.ok postForm)
    (hgt : postForm.Get "grant_type" ≠ "client_credentials") :
    OAuthTokenEndpoint lib pool now ResponseWriter.fresh r ps
      = { header := [("Content-Type", "application/json; charset=utf-8")],
          status := some 400,
          sent := [("Content-Type", "application/json; charset=utf-8")],
          body := "\x7b\"error\":\"unsupported_grant_type\"\x7d\n" } := by
  unfold OAuthTokenEndpoint
  simp only [hparse, hgt, ne_eq, not_false_eq_true, if_true]
  exact unsupported_grant_type_eval

theorem OAuthTokenEndpoint_unsupported_grant_type_witness :
    (exRequest "Basic c1:k1" "grant_type=authorization_code").BasicAuth refLib
      = some ("c1", "k1") ∧
    OAuthTokenEndpoint refLib exPool 0 ResponseWriter.fresh
        (exRequest "Basic c1:k1" "grant_type=authorization_code") []
      = { header := [("Content-Type", "application/json; charset=utf-8")],
          status := some 400,
          sent := [("Content-Type", "application/json; charset=utf-8")],
          body := "\x7b\"error\":\"unsupported_grant_type\"\x7d\n" } :=
  ⟨by decide,
   OAuthTokenEndpoint_unsupported_grant_type refLib exPool 0
    (exRequest "Basic c1:k1" "grant_type=authorization_code") []
    [("grant_type", ["authorization_code"])] (by decide) (by decide)⟩

/-- C6, as amended: for a grant request with `grant_type=client_credentials`, when the
Basic credentials are absent or malformed the endpoint answers 401 with
`WWW-Authenticate: Basic` and the body line `{"error":"invalid_client"}`; when they are
present, the credential query is answered and no row has exactly that
`(oauth_id, oauth_secret)` pair, it answers the same; when the query itself fails it
answers 500 `Database error`. For every request, the answer has status 200 only if
some row has exactly the presented pair. -/
theorem OAuthTokenEndpoint_invalid_client (lib : Lib S J) (pool : Pool) (now : Int)
    (r : Request) (ps : Params) :
    (∀ postForm, lib.ParseForm r = Except.ok postForm →
      postForm.Get "grant_type" = "client_credentials" →
      (r.BasicAuth lib = none →
        OAuthTokenEndpoint lib pool now ResponseWriter.fresh r ps
          = { header := [("Www-Authenticate", "Basic"),
                         ("Content-Type", "application/json; charset=utf-8")],
              status := some 401,
              sent := [("Www-Authenticate", "Basic"),
                       ("Content-Type", "application/json; charset=utf-8")],
              body := "\x7b\"error\":\"invalid_client\"\x7d\n" }) ∧
      (∀ client_id client_secret, r.BasicAuth lib = some (client_id, client_secret) →
        pool.fault = none →
        (∀ c ∈ pool.client, ¬ (c.oauth_id = client_id ∧ c.oauth_secret = client_secret)) →
        OAuthTokenEndpoint lib pool now ResponseWriter.fresh r ps
          = { header := [("Www-Authenticate", "Basic"),
                         ("Content-Type", "application/json; charset=utf-8")],
              status := some 401,
              sent := [("Www-Authenticate", "Basic"),
                       ("Content-Type", "application/json; charset=utf-8")],
              body := "\x7b\"error\":\"invalid_client\"\x7d\n" }) ∧
      (∀ client_id client_secret e, r.BasicAuth lib = some (client_id, client_secret) →
        pool.fault = some e →
        OAuthTokenEndpoint lib pool now ResponseWriter.fresh r ps
          = { header := [("Content-Type", "text/plain; charset=utf-8"),
                         ("X-Content-Type-Options", "nosniff")],
              status := some 500,
              sent := [("Content-Type", "text/plain; charset=utf-8"),
                       ("X-Content-Type-Options", "nosniff")],
              body := "Database error\n" })) ∧
    ((OAuthTokenEndpoint lib pool now ResponseWriter.fresh r ps).status = some 200 →
      ∃ client_id client_secret, r.BasicAuth lib = some (client_id, client_secret) ∧
        ∃ c ∈ pool.client, c.oauth_id = client_id ∧ c.oauth_secret = client_secret) := by
  refine ⟨?_, ?_⟩
  · intro postForm hparse hgt
    refine ⟨?_, ?_, ?_⟩
    · intro hb
      unfold OAuthTokenEndpoint
      simp only [hparse, hgt, ne_eq, not_true_eq_false, if_false, hb]
      exact invalid_client_eval
    · intro client_id client_secret hb hf hno
      obtain ⟨rows, hq, hrows⟩ := QueryCredentials_next pool client_id client_secret hf
      have hnext : rows.Next = false := by
        cases hn : rows.Next with
        | false => rfl
        | true =>
          obtain ⟨_, c, hc, hm⟩ := hrows.mp hn
          exact absurd hm (hno c hc)
      unfold OAuthTokenEndpoint
      simp only [hparse, hgt, ne_eq, not_true_eq_false, if_false, hb, hq, hnext,
        Bool.not_false, if_true]
      exact invalid_client_eval
    · intro client_id client_secret e hb hf
      have hq : pool.QueryCredentials client_id client_secret = Except.error e := by
        unfold Pool.QueryCredentials
        rw [hf]
      unfold OAuthTokenEndpoint
      simp only [hparse, hgt, ne_eq, not_true_eq_false, if_false, hb, hq]
      exact database_error_eval
  · intro hst
    unfold OAuthTokenEndpoint at hst
    cases hparse : lib.ParseForm r with
    | error e =>
      rw [hparse] at hst
      simp only [invalid_request_eval] at hst
      cases hst
    | ok postForm =>
      rw [hparse] at hst
      simp only at hst
      by_cases hgt : postForm.Get "grant_type" ≠ "client_credentials"
      · rw [if_pos hgt, unsupported_grant_type_eval] at hst
        cases hst
      · rw [if_neg hgt] at hst
        cases hb : r.BasicAuth lib with
        | none =>
          rw [hb] at hst
          simp only [invalid_client_eval] at hst
          cases hst
        | some cred =>
          obtain ⟨client_id, client_secret⟩ := cred
          rw [hb] at hst
          simp only at hst
          refine ⟨client_id, client_secret, rfl, ?_⟩
          cases hf : pool.fault with
          | some e =>
            have hq : pool.QueryCredentials client_id client_secret = Except.error e := by
              unfold Pool.QueryCredentials
              rw [hf]
            rw [hq] at hst
            simp only [httpError_fresh_status] at hst
            cases hst
          | none =>
            obtain ⟨rows, hq, hrows⟩ :=
              QueryCredentials_next pool client_id client_secret hf
            rw [hq] at hst
            simp only at hst
            cases hn : rows.Next with
            | false =>
              rw [hn] at hst
              simp only [Bool.not_false, if_true, invalid_client_eval] at hst
              cases hst
            | true => exact (hrows.mp hn).2

theorem OAuthTokenEndpoint_invalid_client_witness :
    OAuthTokenEndpoint refLib exPool 0 ResponseWriter.fresh
        (exRequest "Bearer c1:k1" "grant_type=client_credentials") []
      = { header := [("Www-Authenticate", "Basic"),
                     ("Content-Type", "application/json; charset=utf-8")],
          status := some 401,
          sent := [("Www-Authenticate", "Basic"),
                   ("Content-Type", "application/json; charset=utf-8")],
          body := "\x7b\"error\":\"invalid_client\"\x7d\n" } ∧
    OAuthTokenEndpoint refLib exPool 0 ResponseWriter.fresh
        (exRequest "Basic c1:k2" "grant_type=client_credentials") []
      = { header := [("Www-Authenticate", "Basic"),
                     ("Content-Type", "application/json; charset=utf-8")],
          status := some 401,
          sent := [("Www-Authenticate", "Basic"),
                   ("Content-Type", "application/json; charset=utf-8")],
          body := "\x7b\"error\":\"invalid_client\"\x7d\n" } ∧
    ∃ client_id client_secret,
      (exRequest "Basic c1:k1" "grant_type=client_credentials").BasicAuth refLib
        = some (client_id, client_secret) ∧
      ∃ c ∈ exPool.client, c.oauth_id = client_id ∧ c.oauth_secret = client_secret :=
  ⟨((OAuthTokenEndpoint_invalid_client refLib exPool 0
      (exRequest "Bearer c1:k1" "grant_type=client_credentials") []).1
      [("grant_type", ["client_credentials"])] (by decide) (by decide)).1 (by decide),
   ((OAuthTokenEndpoint_invalid_client refLib exPool 0
      (exRequest "Basic c1:k2" "grant_type=client_credentials") []).1
      [("grant_type", ["client_credentials"])] (by decide) (by decide)).2.1 "c1" "k2"
      (by decide) (by decide) (by decide),
   (OAuthTokenEndpoint_invalid_client refLib exPool (-3598)
      (exRequest "Basic c1:k1" "grant_type=client_credentials") []).2 (by decide)⟩

/-- C6 as stated fails: with `grant_type=client_credentials` and a correct `oauth_id`
with a wrong secret, so that no row has the presented pair, the endpoint answers 500
`Database error`, not 401, when the credential query fails. -/
theorem invalid_client_query_failure :
    refLib.ParseForm (exRequest "Basic c1:k2" "grant_type=client_credentials")
      = Except.ok [("grant_type", ["client_credentials"])] ∧
    (exRequest "Basic c1:k2" "grant_type=client_credentials").BasicAuth refLib
      = some ("c1", "k2") ∧
    (∀ c ∈ exPoolDown.client, ¬ (c.oauth_id = "c1" ∧ c.oauth_secret = "k2")) ∧
    OAuthTokenEndpoint refLib exPoolDown 0 ResponseWriter.fresh
        (exRequest "Basic c1:k2" "grant_type=client_credentials") []
      = { header := [("Content-Type", "text/plain; charset=utf-8"),
                     ("X-Content-Type-Options", "nosniff")],
          status := some 500,
          sent := [("Content-Type", "text/plain; charset=utf-8"),
                   ("X-Content-Type-Options", "nosniff")],
          body := "Database error\n" } := by
  refine ⟨by decide, by decide, by decide, by decide⟩

/-- C10, as amended: for a grant request with `grant_type=client_credentials` and Basic
credentials that are exactly the pair of a client row, when the credential query runs
to its end without error (`pool.Query` returns none and the statement raises none while
it runs) and signing succeeds, the endpoint answers with status 200, the headers
`Content-Type: application/json; charset=utf-8` and `Cache-Control: no-store`, and the
body `{"access_token":"<token>","token_type":"Bearer","expires_in":3600}` followed by
a newline, where `<token>` is the compact token `createToken` returned for the
client with duration 3600: the signed serialization of the payload with `clientId` the
client's `oauth_id` and `expiresAt` the issue time plus 3600 (the `int64` sum, which is
the sum of integers whenever that is an `int64`). -/
theorem OAuthTokenEndpoint_success (lib : Lib S J) (pool : Pool) (now : Int)
    (r : Request) (ps : Params) (postForm : Values) (c : Client) (tok : String)
    (hparse : lib.ParseForm r = Except.ok postForm)
    (hgt : postForm.Get "grant_type" = "client_credentials")
    (hb : r.BasicAuth lib = some (c.oauth_id, c.oauth_secret))
    (hc : c ∈ pool.client)
    (hf : pool.fault = none)
    (hx : pool.rowsErr = none)
    (hsign : createToken lib now c.oauth_id c.oauth_secret ACCESS_TOKEN_DURATION
      = Except.ok tok) :
    OAuthTokenEndpoint lib pool now ResponseWriter.fresh r ps
      = { header := [("Content-Type", "application/json; charset=utf-8"),
                     ("Cache-Control", "no-store")],
          status := some 200,
          sent := [("Content-Type", "application/json; charset=utf-8"),
                   ("Cache-Control", "no-store")],
          body := "\x7b\"access_token\":\"" ++ tok
            ++ "\",\"token_type\":\"Bearer\",\"expires_in\":3600\x7d" ++ "\n" } ∧
    ∃ signer payload jws, lib.NewSigner c.oauth_secret = Except.ok signer ∧
      lib.Marshal { OAuthId := c.oauth_id, ExpiresAt := wrapInt64 (now + 3600) }
        = Except.ok payload ∧
      lib.Sign signer payload = Except.ok jws ∧
      lib.CompactSerialize jws = Except.ok tok ∧
      (-2 ^ 63 ≤ now + 3600 → now + 3600 < 2 ^ 63 → wrapInt64 (now + 3600) = now + 3600) := by
  refine ⟨?_, ?_⟩
  · obtain ⟨rows, hq, hrows⟩ := QueryCredentials_next pool c.oauth_id c.oauth_secret hf
    have hnext : rows.Next = true := hrows.mpr ⟨hx, c, hc, rfl, rfl⟩
    unfold OAuthTokenEndpoint
    simp only [hparse, hgt, ne_eq, not_true_eq_false, if_false, hb, hq, hnext,
      Bool.not_true, Bool.false_eq_true, hsign]
    exact token_response_eval tok
  · have h := createToken_ok lib now c.oauth_id c.oauth_secret ACCESS_TOKEN_DURATION tok hsign
    rw [wrapInt64_duration] at h
    obtain ⟨signer, payload, jws, h1, h2, h3, h4⟩ := h
    exact ⟨signer, payload, jws, h1, h2, h3, h4, fun h0 h5 => wrapInt64_of_range h0 h5⟩

theorem OAuthTokenEndpoint_success_witness :
    createToken refLib (-3598) "c1" "k1" 3600 = Except.ok "c1,11.mac(k1,c1,11)" ∧
    OAuthTokenEndpoint refLib exPool (-3598) ResponseWriter.fresh
        (exRequest "Basic c1:k1" "grant_type=client_credentials") []
      = { header := [("Content-Type", "application/json; charset=utf-8"),
                     ("Cache-Control", "no-store")],
          status := some 200,
          sent := [("Content-Type", "application/json; charset=utf-8"),
                   ("Cache-Control", "no-store")],
          body := "\x7b\"access_token\":\"" ++ "c1,11.mac(k1,c1,11)"
            ++ "\",\"token_type\":\"Bearer\",\"expires_in\":3600\x7d" ++ "\n" } :=
  ⟨by decide,
   (OAuthTokenEndpoint_success refLib exPool (-3598)
    (exRequest "Basic c1:k1" "grant_type=client_credentials") []
    [("grant_type", ["client_credentials"])]
    { id := 1, oauth_id := "c1", oauth_secret := "k1", created := 0 }
    "c1,11.mac(k1,c1,11)"
    (by decide) (by decide) (by decide) (by decide) (by decide) (by decide)
    (by decide)).1⟩

/-- C10 as stated fails: with `grant_type=client_credentials`, Basic credentials that
are the pair of a client row, and a key and payload that sign, the endpoint answers
500 `Database error` when `pool.Query` returns an error, and 401 `invalid_client`
when the statement fails while it runs (`rows.Next()` is false and `rows.Err()` is not
read); in neither run does it answer 200. -/
theorem token_grant_query_failure :
    refLib.ParseForm (exRequest "Basic c1:k1" "grant_type=client_credentials")
      = Except.ok [("grant_type", ["client_credentials"])] ∧
    (exRequest "Basic c1:k1" "grant_type=client_credentials").BasicAuth refLib
      = some ("c1", "k1") ∧
    (∃ c ∈ exPoolDown.client, c.oauth_id = "c1" ∧ c.oauth_secret = "k1") ∧
    (∃ c ∈ exPoolFailing.client, c.oauth_id = "c1" ∧ c.oauth_secret = "k1") ∧
    createToken refLib (-3598) "c1" "k1" 3600 = Except.ok "c1,11.mac(k1,c1,11)" ∧
    OAuthTokenEndpoint refLib exPoolDown (-3598) ResponseWriter.fresh
        (exRequest "Basic c1:k1" "grant_type=client_credentials") []
      = { header := [("Content-Type", "text/plain; charset=utf-8"),
                     ("X-Content-Type-Options", "nosniff")],
          status := some 500,
          sent := [("Content-Type", "text/plain; charset=utf-8"),
                   ("X-Content-Type-Options", "nosniff")],
          body := "Database error\n" } ∧
    OAuthTokenEndpoint refLib exPoolFailing (-3598) ResponseWriter.fresh
        (exRequest "Basic c1:k1" "grant_type=client_credentials") []
      = { header := [("Www-Authenticate", "Basic"),
                     ("Content-Type", "application/json; charset=utf-8")],
          status := some 401,
          sent := [("Www-Authenticate", "Basic"),
                   ("Content-Type", "application/json; charset=utf-8")],
          body := "\x7b\"error\":\"invalid_client\"\x7d\n" } := by
  refine ⟨by decide, by decide, by decide, by decide, by decide, by decide, by decide⟩

end endpoint

end Ccma
